import Mathlib

/-!
# Ozone/Wayland platform window

A shallow embedding of `ozone/platform/ozone_wayland_window.cc`
(class `ui::OzoneWaylandWindow`): bounds validation against the parent
window, widget state, region and cursor bookkeeping, and the messages handed
to the GPU-process transport.

Conventions of the embedding.

* C++ `int` is embedded as `Int`. Signed overflow is undefined behaviour in
  C++, so the embedding agrees with the code on every run in which no
  intermediate value leaves the range of `int`.
* The collaborators of the window (`sender_`, `window_manager_`, `delegate_`,
  the task runner, `display::Screen`) live outside this file of the source.
  They are embedded as plain data carried next to the window's own members:
  the list of messages handed to `sender_->Send`, the table of windows known
  to the window manager, the list of delegate callbacks made, the list of
  posted decode tasks.
* Code paths that end the process (a failed `DCHECK`, a null pointer that is
  dereferenced) return `Except.error`.
-/

namespace OzoneWaylandWindow

/-! ## Geometry -/

/-- Point of `gfx::Point`: a pair of integer coordinates. -/
structure Point where
  x : Int
  y : Int
deriving DecidableEq

/-- Rectangle of `gfx::Rect`: origin, width and height.
Modelled from the spec: `ui/gfx/geometry/rect.h` is not part of the sources at
hand; the data model describes the bounds as a rectangle (x, y, width, height)
whose origin may be replaced while width and height stay. -/
structure Rect where
  x : Int
  y : Int
  width : Int
  height : Int
deriving DecidableEq

/-- The method `gfx::Rect::set_origin`: replaces the origin, keeps the size. -/
def Rect.set_origin (r : Rect) (p : Point) : Rect :=
  { r with x := p.x, y := p.y }

/-- The constructor `gfx::Rect(width, height)`: a rectangle at the origin. -/
def Rect.ofSize (width height : Int) : Rect :=
  ⟨0, 0, width, height⟩

/-- The default constructor `gfx::Rect()`. -/
def Rect.empty : Rect :=
  ⟨0, 0, 0, 0⟩

/-- Rectangle of `SkIRect`: left, top, right, bottom. -/
structure SkIRect where
  left : Int
  top : Int
  right : Int
  bottom : Int
deriving DecidableEq

/-- The method `SkIRect::isEmpty`. -/
def SkIRect.isEmpty (r : SkIRect) : Bool :=
  decide (r.right ≤ r.left) || decide (r.bottom ≤ r.top)

/-- Smallest rectangle containing both arguments. -/
def SkIRect.join (a b : SkIRect) : SkIRect :=
  ⟨min a.left b.left, min a.top b.top, max a.right b.right, max a.bottom b.bottom⟩

/-- Common part of both arguments (possibly empty). -/
def SkIRect.intersect (a b : SkIRect) : SkIRect :=
  ⟨max a.left b.left, max a.top b.top, min a.right b.right, min a.bottom b.bottom⟩

/-- Region of `SkRegion`.
Modelled from the spec: Skia is not part of the sources at hand. A region is a
finite set of non-empty rectangles; the window only ever asks a region whether
it is empty and what its bounding box is. -/
structure SkRegion where
  rects : List SkIRect
deriving DecidableEq

/-- The method `SkRegion::isEmpty`. -/
def SkRegion.isEmpty (r : SkRegion) : Bool :=
  r.rects.isEmpty

/-- The method `SkRegion::getBounds`: the bounding box of the region. -/
def SkRegion.getBounds (r : SkRegion) : SkIRect :=
  match r.rects with
  | [] => ⟨0, 0, 0, 0⟩
  | x :: xs => xs.foldl SkIRect.join x

/-- The method `SkRegion::setRect`: the region of one rectangle, empty when the
rectangle is. -/
def SkRegion.setRect (r : SkIRect) : SkRegion :=
  if r.isEmpty then ⟨[]⟩ else ⟨[r]⟩

/-- Path of `SkPath`.
Modelled from the spec: Skia is not part of the sources at hand. A path is
represented by the rectangles that make up the area it encloses. -/
structure SkPath where
  rects : List SkIRect
deriving DecidableEq

/-- The method `SkRegion::setPath(path, clip)`: the area of the path that lies
inside the clip region. -/
def SkRegion.setPath (path : SkPath) (clip : SkRegion) : SkRegion :=
  ⟨(path.rects.flatMap fun p => clip.rects.map fun c => p.intersect c).filter
      fun r => !r.isEmpty⟩

/-! ## Cursors -/

/-- Bitmap of `SkBitmap`, identified by a number. -/
structure SkBitmap where
  id : Nat
deriving DecidableEq

/-- Cursor object of `BitmapCursorOzone`: its bitmaps and its hotspot. -/
structure BitmapCursorOzone where
  bitmaps : List SkBitmap
  hotspot : Point
deriving DecidableEq

/-- Pointer to a `BitmapCursorOzone`: the address and the cursor object found
at that address. -/
structure CursorPointer where
  address : Nat
  object : BitmapCursorOzone
deriving DecidableEq

/-- Handle of `PlatformCursor`: a pointer to a `BitmapCursorOzone`, `none` for
`nullptr`. -/
abbrev PlatformCursor := Option CursorPointer

/-- The comparison `==` of two `PlatformCursor` values: they are pointers, so
they are equal when both are null or both hold the same address, whatever the
objects look like. -/
def pointer_eq (a b : PlatformCursor) : Bool :=
  match a, b with
  | none, none => true
  | some x, some y => x.address == y.address
  | _, _ => false

/-- The function `BitmapCursorFactoryOzone::GetBitmapCursor`: the cursor object
behind a platform cursor. -/
def GetBitmapCursor (cursor : PlatformCursor) : Option BitmapCursorOzone :=
  cursor.map fun pointer => pointer.object

/-- The function `CursorFactoryOzone::CreateImageCursor`: a pointer to a new
cursor of one bitmap. The address of the new object is the allocator's choice;
the window passes the pointer to `GetBitmapCursor` only, so the address is
not observed, and it is taken here to be the number of the bitmap plus one. -/
def CreateImageCursor (image : SkBitmap) (hotspot : Point) : PlatformCursor :=
  some ⟨image.id + 1, ⟨[image], hotspot⟩⟩

/-- Enumeration `neva_app_runtime::CustomCursorType`. -/
inductive CustomCursorType where
  | kNotUse
  | kBlank
  | kPath
deriving DecidableEq

/-- Constant `webos::lsm_cursor_hide_location`. -/
def lsm_cursor_hide_location : Point := ⟨254, 254⟩

/-- Constant `webos::lsm_cursor_restore_location`. -/
def lsm_cursor_restore_location : Point := ⟨255, 255⟩

/-! ## Widget enumerations and messages -/

/-- Enumeration `ui::WidgetType`. -/
inductive WidgetType where
  | WINDOW
  | WINDOWFRAMELESS
  | POPUP
  | TOOLTIP
deriving DecidableEq

/-- Enumeration `ui::WidgetState`. -/
inductive WidgetState where
  | UNINITIALIZED
  | SHOW
  | HIDE
  | FULLSCREEN
  | MAXIMIZED
  | MINIMIZED
  | RESTORE
deriving DecidableEq

/-- Enumeration `neva::PlatformWindowType`; `kOther` stands for every value
that reaches the `default` label of the switch in `InitPlatformWindow`. -/
inductive PlatformWindowType where
  | kPopup
  | kMenu
  | kTooltip
  | kBubble
  | kWindow
  | kWindowFrameless
  | kOther
deriving DecidableEq

/-- Messages `WaylandDisplay_*` handed to `sender_->Send`. Payloads of
enumeration or record types that the window only passes on (location hint,
hidden type, key symbols, key masks, group configuration, text input info)
are numbers. -/
inductive Message where
  | Create (handle : Nat)
  | InitWindow (handle parent : Nat) (bounds : Rect) (type : WidgetType)
  | Title (handle : Nat) (title : String)
  | State (handle : Nat) (state : WidgetState)
  | AddRegion (handle : Nat) (left top right bottom : Int)
  | SubRegion (handle : Nat) (left top right bottom : Int)
  | MoveWindow (handle parent : Nat) (type : WidgetType) (bounds : Rect)
  | CursorSet (bitmaps : List SkBitmap) (hotspot : Point)
  | SetWindowProperty (handle : Nat) (name value : String)
  | RequestDragData (mime_type : String)
  | RequestSelectionData (mime_type : String)
  | DragWillBeAccepted (serial : Nat) (mime_type : String)
  | DragWillBeRejected (serial : Nat)
  | MoveCursor (location : Point)
  | SetLocationHint (handle : Nat) (value : Nat)
  | AttachToWindowGroup (handle : Nat) (group layer : String)
  | FocusWindowGroupOwner (handle : Nat)
  | FocusWindowGroupLayer (handle : Nat)
  | DetachWindowGroup (handle : Nat)
  | ShowInputPanel (handle : Nat)
  | HideInputPanel (hidden_type : Nat) (handle : Nat)
  | SetSurroundingText (handle : Nat) (text : String) (cursor_position anchor_position : Nat)
  | XInputActivate (type : String)
  | XInputDeactivate
  | XInputInvokeAction (keysym symbol_type event_type : Nat)
  | CreateWindowGroup (handle : Nat) (config : Nat)
  | SetTextInputInfo (text_input_info : Nat) (handle : Nat)
  | SetInputRegion (handle : Nat) (region : List Rect)
  | SetGroupKeyMask (handle : Nat) (key_mask : Nat)
  | SetKeyMask (handle : Nat) (key_mask : Nat) (set : Bool)
deriving DecidableEq

/-- Callbacks made on `delegate_`. -/
inductive DelegateCall where
  | OnBoundsChanged (bounds : Rect)
  | OnCloseRequest
deriving DecidableEq

/-- Arguments bound into the `CreateBitmapFromPng` task posted by
`SetCustomCursor`. -/
structure DecodeTask where
  type : CustomCursorType
  path : String
  hotspot_x : Int
  hotspot_y : Int
  allowed_cursor_overriding : Bool
deriving DecidableEq

/-- Ways in which a call ends the process instead of returning. -/
inductive Fault where
  | dcheck_failed
  | null_dereference
deriving DecidableEq

/-! ## The window and its collaborators -/

/-- Members of `OzoneWaylandWindow` together with the observable part of its
collaborators.

* `dcheck_is_on`, `os_webos`: the build configuration (`DCHECK_IS_ON()`,
  `defined(OS_WEBOS)`).
* `handle_` .. `allowed_cursor_overriding_`: the members of the class.
* `connected`, `sent`: `sender_->IsConnected()` and the messages handed to
  `sender_->Send`, oldest first.
* `wm_windows`: bounds of the window registered in the window manager under a
  handle, as `window_manager_->GetWindow(handle)->GetBounds()` returns them; a
  handle without an entry has no window (`GetWindow` returns null).
* `wm_active`: handle of the active window of a display, as
  `window_manager_->GetActiveWindow(display_id)->GetHandle()` returns it.
* `wm_platform_cursor`: `window_manager_->GetPlatformCursor()`.
* `screen`: bounds of the primary display of `display::Screen::GetScreen()`,
  `none` when there is no screen.
* `delegate_calls`: callbacks made on `delegate_`, oldest first.
* `posted`: `CreateBitmapFromPng` tasks posted and not yet run. -/
structure World where
  dcheck_is_on : Bool
  os_webos : Bool
  handle_ : Nat
  transparent_ : Bool
  bounds_ : Rect
  resize_enabled_ : Bool
  parent_ : Nat
  type_ : WidgetType
  state_ : WidgetState
  region_ : Option SkRegion
  init_window_ : Bool
  title_ : String
  display_id_ : String
  bitmap_ : Option BitmapCursorOzone
  cursor_type_ : CustomCursorType
  allowed_cursor_overriding_ : Bool
  connected : Bool
  sent : List Message
  wm_windows : List (Nat × Rect)
  wm_active : List (String × Nat)
  wm_platform_cursor : PlatformCursor
  screen : Option Rect
  delegate_calls : List DelegateCall
  posted : List DecodeTask
deriving DecidableEq

/-- The call `sender_->Send(message)`. -/
def Send (w : World) (m : Message) : World :=
  { w with sent := w.sent ++ [m] }

/-- The call `window_manager_->GetWindow(handle)->GetBounds()`; `none` when the
window manager has no window under the handle. -/
def GetWindowBounds (w : World) (handle : Nat) : Option Rect :=
  (w.wm_windows.find? fun e => e.1 == handle).map Prod.snd

/-- The call `window_manager_->GetActiveWindow(display_id)`, giving the handle
of the active window when there is one. -/
def GetActiveWindow (w : World) (display_id : String) : Option Nat :=
  (w.wm_active.find? fun e => e.1 == display_id).map Prod.snd

/-- State of a window as the constructor leaves it, for a given handle and
initial bounds, with collaborators that have seen nothing yet, in a build for
webOS without `DCHECK`. The members the constructor's initializer list does
not mention start empty, `kNotUse` and `false`. -/
def World.init (handle : Nat) (bounds : Rect) : World :=
  { dcheck_is_on := false
    os_webos := true
    handle_ := handle
    transparent_ := false
    bounds_ := bounds
    resize_enabled_ := true
    parent_ := 0
    type_ := WidgetType.WINDOWFRAMELESS
    state_ := WidgetState.UNINITIALIZED
    region_ := none
    init_window_ := false
    title_ := ""
    display_id_ := ""
    bitmap_ := none
    cursor_type_ := CustomCursorType.kNotUse
    allowed_cursor_overriding_ := false
    connected := false
    sent := []
    wm_windows := []
    wm_active := []
    wm_platform_cursor := none
    screen := none
    delegate_calls := []
    posted := [] }

/-- Equality of outcomes is decidable. -/
instance instDecidableEqOutcome : DecidableEq (Except Fault World)
  | Except.ok a, Except.ok b =>
    if h : a = b then isTrue (by rw [h]) else isFalse (fun h1 => h (Except.ok.inj h1))
  | Except.error a, Except.error b =>
    if h : a = b then isTrue (by rw [h]) else isFalse (fun h1 => h (Except.error.inj h1))
  | Except.ok _, Except.error _ => isFalse (fun h => nomatch h)
  | Except.error _, Except.ok _ => isFalse (fun h => nomatch h)

/-! ## Private helpers of the class -/

/-- Method `OzoneWaylandWindow::SendWidgetState`. -/
def SendWidgetState (w : World) : World :=
  if !w.connected then w
  else Send w (Message.State w.handle_ w.state_)

/-- Method `OzoneWaylandWindow::AddRegion`. -/
def AddRegion (w : World) : World :=
  match w.region_ with
  | some region =>
    if w.connected && !region.isEmpty then
      let rect := region.getBounds
      Send w (Message.AddRegion w.handle_ rect.left rect.top rect.right rect.bottom)
    else w
  | none => w

/-- Method `OzoneWaylandWindow::ResetRegion`. -/
def ResetRegion (w : World) : World :=
  match w.region_ with
  | some region =>
    if w.connected && !region.isEmpty then
      let rect := region.getBounds
      { Send w (Message.SubRegion w.handle_ rect.left rect.top rect.right rect.bottom) with
        region_ := none }
    else
      { w with region_ := none }
  | none => w

/-- Method `OzoneWaylandWindow::SetCursor()` (the overload without argument). -/
def SetCursorNoArg (w : World) : World :=
  match w.bitmap_ with
  | some bitmap => Send w (Message.CursorSet bitmap.bitmaps bitmap.hotspot)
  | none => Send w (Message.CursorSet [] ⟨0, 0⟩)

/-- Method `OzoneWaylandWindow::ValidateBounds`. `DCHECK(parent_)` ends the
process in a build with `DCHECK_IS_ON()`; otherwise an unset parent is logged
and the call returns. `GetWindow(parent_)` is dereferenced unchecked. -/
def ValidateBounds (w : World) : Except Fault World :=
  if w.dcheck_is_on && w.parent_ == 0 then
    Except.error Fault.dcheck_failed
  else if w.parent_ = 0 then
    Except.ok w
  else
    match GetWindowBounds w w.parent_ with
    | none => Except.error Fault.null_dereference
    | some parent_bounds =>
      let x := w.bounds_.x - parent_bounds.x
      let y := w.bounds_.y - parent_bounds.y
      let x :=
        if x < parent_bounds.x then
          parent_bounds.x
        else
          let width := x + w.bounds_.width
          if width > parent_bounds.width then x - (width - parent_bounds.width) else x
      let y :=
        if y < parent_bounds.y then
          parent_bounds.y
        else
          let height := y + w.bounds_.height
          if height > parent_bounds.height then y - (height - parent_bounds.height) else y
      Except.ok { w with bounds_ := w.bounds_.set_origin ⟨x, y⟩ }

/-! ## Public operations -/

/-- The two statements shared by the popup and tooltip cases of
`InitPlatformWindow`: `parent_ = parent_window;` followed by
`if (!parent_ && GetActiveWindow(display_id_)) parent_ =
GetActiveWindow(display_id_)->GetHandle();`. The result is the new value of
`parent_`. -/
def resolveParent (w : World) (parent_window : Nat) : Nat :=
  match GetActiveWindow w w.display_id_ with
  | some active => if parent_window = 0 then active else parent_window
  | none => parent_window

/-- Method `OzoneWaylandWindow::InitPlatformWindow`. -/
def InitPlatformWindow (w : World) (type : PlatformWindowType) (parent_window : Nat) :
    Except Fault World := do
  let w1 ←
    match type with
    | PlatformWindowType.kPopup | PlatformWindowType.kMenu =>
      ValidateBounds
        { w with parent_ := resolveParent w parent_window, type_ := WidgetType.POPUP }
    | PlatformWindowType.kTooltip =>
      Except.ok
        { w with
          parent_ := resolveParent w parent_window
          type_ := WidgetType.TOOLTIP
          bounds_ := w.bounds_.set_origin ⟨0, 0⟩ }
    | PlatformWindowType.kBubble | PlatformWindowType.kWindow =>
      Except.ok { w with parent_ := 0, type_ := WidgetType.WINDOW }
    | PlatformWindowType.kWindowFrameless => Except.ok w
    | PlatformWindowType.kOther => Except.ok w
  if !w1.connected then
    Except.ok { w1 with init_window_ := true }
  else
    Except.ok (Send { w1 with init_window_ := true }
      (Message.InitWindow w1.handle_ w1.parent_ w1.bounds_ w1.type_))

/-- Method `OzoneWaylandWindow::SetTitle`. -/
def SetTitle (w : World) (title : String) : World :=
  let w := { w with title_ := title }
  if !w.connected then w
  else Send w (Message.Title w.handle_ w.title_)

/-- Method `OzoneWaylandWindow::SetWindowShape`. -/
def SetWindowShape (w : World) (path : SkPath) : World :=
  let w := ResetRegion w
  if w.transparent_ then w
  else
    let clip_region := SkRegion.setRect ⟨0, 0, w.bounds_.width, w.bounds_.height⟩
    let w := { w with region_ := some (SkRegion.setPath path clip_region) }
    AddRegion w

/-- Method `OzoneWaylandWindow::SetOpacity`. The `float` argument is embedded
as a rational; the code only compares it with `1.f`. -/
def SetOpacity (w : World) (opacity : ℚ) : World :=
  if opacity = 1 then
    if w.transparent_ then
      let w := AddRegion w
      { w with transparent_ := false }
    else w
  else if !w.transparent_ then
    let w := ResetRegion w
    { w with transparent_ := true }
  else w

/-- The call `delegate_->OnBoundsChanged(bounds)`. -/
def OnBoundsChanged (w : World) (bounds : Rect) : World :=
  { w with delegate_calls := w.delegate_calls ++ [DelegateCall.OnBoundsChanged bounds] }

/-- The call `delegate_->OnCloseRequest()`. -/
def OnCloseRequest (w : World) : World :=
  { w with delegate_calls := w.delegate_calls ++ [DelegateCall.OnCloseRequest] }

/-- Method `OzoneWaylandWindow::SetBounds`. -/
def SetBounds (w : World) (bounds : Rect) : Except Fault World := do
  let original_x := w.bounds_.x
  let original_y := w.bounds_.y
  let w1 ←
    if w.type_ = WidgetType.TOOLTIP then ValidateBounds { w with bounds_ := bounds }
    else Except.ok { w with bounds_ := bounds }
  if original_x ≠ w1.bounds_.x ∨ original_y ≠ w1.bounds_.y then
    Except.ok (OnBoundsChanged
      (Send w1 (Message.MoveWindow w1.handle_ w1.parent_ w1.type_ w1.bounds_)) w1.bounds_)
  else
    Except.ok (OnBoundsChanged w1 w1.bounds_)

/-- Method `OzoneWaylandWindow::Show`. -/
def Show (w : World) (_inactive : Bool) : World :=
  let w := { w with state_ := WidgetState.SHOW }
  SendWidgetState w

/-- Method `OzoneWaylandWindow::Hide`. -/
def Hide (w : World) : World :=
  let w := { w with state_ := WidgetState.HIDE }
  if w.type_ = WidgetType.TOOLTIP then
    OnCloseRequest w
  else
    SendWidgetState w

/-- Method `OzoneWaylandWindow::ToggleFullscreen`. Without a screen the code
passes `NOTREACHED()` and dereferences the null screen. -/
def ToggleFullscreen (w : World) : Except Fault World :=
  match w.screen with
  | none => Except.error Fault.null_dereference
  | some display_bounds => do
    let w ← SetBounds w display_bounds
    let w := { w with state_ := WidgetState.FULLSCREEN }
    Except.ok (SendWidgetState w)

/-- Method `OzoneWaylandWindow::ToggleFullscreenWithSize`. -/
def ToggleFullscreenWithSize (w : World) (width height : Int) : Except Fault World :=
  if width = 0 ∨ height = 0 then
    ToggleFullscreen w
  else do
    let w ← SetBounds w (Rect.ofSize width height)
    let w := { w with state_ := WidgetState.FULLSCREEN }
    Except.ok (SendWidgetState w)

/-- Method `OzoneWaylandWindow::Maximize`. -/
def Maximize (w : World) : Except Fault World :=
  match w.screen with
  | none => Except.error Fault.null_dereference
  | some display_bounds => do
    let w ← SetBounds w display_bounds
    let w := { w with state_ := WidgetState.MAXIMIZED }
    Except.ok (SendWidgetState w)

/-- Method `OzoneWaylandWindow::Minimize`. -/
def Minimize (w : World) : Except Fault World := do
  let w ← SetBounds w Rect.empty
  let w := { w with state_ := WidgetState.MINIMIZED }
  Except.ok (SendWidgetState w)

/-- Method `OzoneWaylandWindow::Restore`.
Modelled from the spec: `WindowManagerWayland::Restore` is not part of the
sources at hand; restoring delegates to the window manager, whose own
bookkeeping is outside the members embedded here. -/
def Restore (w : World) : World :=
  let w := { w with state_ := WidgetState.RESTORE }
  SendWidgetState w

/-- Method `OzoneWaylandWindow::SetCursor(PlatformCursor)`. The test
`window_manager_->GetPlatformCursor() == cursor` compares pointers. -/
def SetCursor (w : World) (cursor : PlatformCursor) : World :=
  if w.allowed_cursor_overriding_ || pointer_eq w.wm_platform_cursor cursor then w
  else
    let w := { w with bitmap_ := GetBitmapCursor cursor }
    let w := { w with wm_platform_cursor := cursor }
    if !w.connected then w
    else SetCursorNoArg w

/-- Method `OzoneWaylandWindow::DeferredSendingToGpu`. -/
def DeferredSendingToGpu (w : World) : World :=
  let w := Send w (Message.Create w.handle_)
  let w :=
    if w.init_window_ then
      Send w (Message.InitWindow w.handle_ w.parent_ w.bounds_ w.type_)
    else w
  let w :=
    if w.state_ ≠ WidgetState.UNINITIALIZED then
      Send w (Message.State w.handle_ w.state_)
    else w
  let w :=
    if w.title_.length ≠ 0 then
      Send w (Message.Title w.handle_ w.title_)
    else w
  let w := AddRegion w
  if w.bitmap_.isSome then SetCursorNoArg w else w

/-- Method `OzoneWaylandWindow::OnGpuProcessLaunched`. -/
def OnGpuProcessLaunched (w : World) : World :=
  if w.connected then DeferredSendingToGpu w else w

/-- Method `OzoneWaylandWindow::SetWindowProperty`.
Modelled from the spec: `OnRootWindowDisplayChanged` of the window manager is
not part of the sources at hand; only the window's own `display_id_` is
tracked. -/
def SetWindowProperty (w : World) (name value : String) : World :=
  let w :=
    if name = "displayAffinity" ∧ w.display_id_ ≠ value then
      { w with display_id_ := value }
    else w
  Send w (Message.SetWindowProperty w.handle_ name value)

/-- Method `OzoneWaylandWindow::ResetCustomCursor`. -/
def ResetCustomCursor (w : World) : World :=
  match w.bitmap_ with
  | some bitmap => Send w (Message.CursorSet bitmap.bitmaps bitmap.hotspot)
  | none =>
    if w.os_webos then
      if w.cursor_type_ = CustomCursorType.kBlank then
        Send w (Message.CursorSet [] lsm_cursor_hide_location)
      else
        Send w (Message.CursorSet [] lsm_cursor_restore_location)
    else w

/-- Method `OzoneWaylandWindow::SetResizeEnabled`. -/
def SetResizeEnabled (w : World) (enabled : Bool) : World :=
  { w with resize_enabled_ := enabled }

/-- Method `OzoneWaylandWindow::SetCustomCursor`. For `kPath` the decode task
is posted; the two branches that send a cursor without bitmap exist only in a
build with `OS_WEBOS`. -/
def SetCustomCursor (w : World) (type : CustomCursorType) (path : String)
    (hotspot_x hotspot_y : Int) (allowed_cursor_overriding : Bool) : World :=
  if w.allowed_cursor_overriding_ && !allowed_cursor_overriding then w
  else if type != CustomCursorType.kPath && type == w.cursor_type_ &&
      w.wm_platform_cursor == none then w
  else
    let w := { w with cursor_type_ := type }
    let w := { w with wm_platform_cursor := none }
    let w := { w with allowed_cursor_overriding_ := allowed_cursor_overriding }
    if type = CustomCursorType.kPath then
      { w with posted := w.posted ++
          [⟨type, path, hotspot_x, hotspot_y, allowed_cursor_overriding⟩] }
    else if w.os_webos then
      if type = CustomCursorType.kBlank then
        let w := Send w (Message.CursorSet [] lsm_cursor_hide_location)
        { w with bitmap_ := none }
      else
        let w := Send w (Message.CursorSet [] lsm_cursor_restore_location)
        { w with bitmap_ := none }
    else w

/-- Method `OzoneWaylandWindow::SetCustomCursorFromBitmap`; `cursor_image` is
`none` for a null pointer. -/
def SetCustomCursorFromBitmap (w : World) (_type : CustomCursorType)
    (cursor_image : Option SkBitmap) (hotspot_x hotspot_y : Int)
    (allowed_cursor_overriding : Bool) : World :=
  match cursor_image with
  | none => SetCustomCursor w CustomCursorType.kNotUse "" 0 0 allowed_cursor_overriding
  | some image =>
    let cursor := CreateImageCursor image ⟨hotspot_x, hotspot_y⟩
    let w := { w with bitmap_ := GetBitmapCursor cursor }
    let w := { w with wm_platform_cursor := none }
    if w.connected then SetCursorNoArg w else w

/-- The posted task `CreateBitmapFromPng` followed by its callback: the oldest
posted decode task runs with the outcome of reading and decoding the file
(`none` when either fails, in which case nothing else happens); on success the
callback `SetCustomCursorFromBitmap` runs with the decoded bitmap. -/
def RunDecodeTask (w : World) (decoded : Option SkBitmap) : World :=
  match w.posted with
  | [] => w
  | task :: rest =>
    let w := { w with posted := rest }
    match decoded with
    | none => w
    | some bitmap =>
      SetCustomCursorFromBitmap w task.type (some bitmap) task.hotspot_x task.hotspot_y
        task.allowed_cursor_overriding

/-- Methods that only forward their arguments to `sender_->Send`
(`RequestDragData`, `RequestSelectionData`, `DragWillBeAccepted`,
`DragWillBeRejected`, `MoveCursorTo`, `SetLocationHint`, `CreateGroup`,
`AttachToGroup`, `FocusGroupOwner`, `FocusGroupLayer`, `DetachGroup`,
`ShowInputPanel`, `HideInputPanel`, `SetTextInputInfo`, `SetSurroundingText`,
`XInputActivate`, `XInputDeactivate`, `XInputInvokeAction`, `SetInputRegion`,
`SetGroupKeyMask`, `SetKeyMask`): the message they build is the argument. -/
def Forward (w : World) (m : Message) : World :=
  Send w m

/-! ## Sequences of operations -/

/-- Calls on the window, and the events of its surroundings (the transport
connecting or disconnecting, a posted decode task running, another client of
the window manager setting the platform cursor). Methods that only read
(`GetBounds`, `IsVisible`, `HasCapture`, `GetDisplayId`, ...), that are empty
or `NOTIMPLEMENTED()`, or that only call the window manager (`Close`,
`SetCapture`, `ReleaseCapture`) change none of the embedded members and are
not listed. -/
inductive Op where
  | InitPlatformWindow (type : PlatformWindowType) (parent_window : Nat)
  | SetTitle (title : String)
  | SetWindowShape (path : SkPath)
  | SetOpacity (opacity : ℚ)
  | SetBounds (bounds : Rect)
  | Show (inactive : Bool)
  | Hide
  | ToggleFullscreen
  | ToggleFullscreenWithSize (width height : Int)
  | Maximize
  | Minimize
  | Restore
  | SetCursor (cursor : PlatformCursor)
  | OnGpuProcessLaunched
  | SetWindowProperty (name value : String)
  | ResetCustomCursor
  | SetResizeEnabled (enabled : Bool)
  | SetCustomCursor (type : CustomCursorType) (path : String) (hotspot_x hotspot_y : Int)
      (allowed_cursor_overriding : Bool)
  | SetCustomCursorFromBitmap (type : CustomCursorType) (cursor_image : Option SkBitmap)
      (hotspot_x hotspot_y : Int) (allowed_cursor_overriding : Bool)
  | RunDecodeTask (decoded : Option SkBitmap)
  | Forward (m : Message)
  | ChannelConnected
  | ChannelDisconnected
  | PlatformCursorChanged (cursor : PlatformCursor)

/-- One operation applied to the window. -/
def step (w : World) : Op → Except Fault World
  | Op.InitPlatformWindow type parent_window => InitPlatformWindow w type parent_window
  | Op.SetTitle title => Except.ok (SetTitle w title)
  | Op.SetWindowShape path => Except.ok (SetWindowShape w path)
  | Op.SetOpacity opacity => Except.ok (SetOpacity w opacity)
  | Op.SetBounds bounds => SetBounds w bounds
  | Op.Show inactive => Except.ok (Show w inactive)
  | Op.Hide => Except.ok (Hide w)
  | Op.ToggleFullscreen => ToggleFullscreen w
  | Op.ToggleFullscreenWithSize width height => ToggleFullscreenWithSize w width height
  | Op.Maximize => Maximize w
  | Op.Minimize => Minimize w
  | Op.Restore => Except.ok (Restore w)
  | Op.SetCursor cursor => Except.ok (SetCursor w cursor)
  | Op.OnGpuProcessLaunched => Except.ok (OnGpuProcessLaunched w)
  | Op.SetWindowProperty name value => Except.ok (SetWindowProperty w name value)
  | Op.ResetCustomCursor => Except.ok (ResetCustomCursor w)
  | Op.SetResizeEnabled enabled => Except.ok (SetResizeEnabled w enabled)
  | Op.SetCustomCursor type path hotspot_x hotspot_y allowed =>
    Except.ok (SetCustomCursor w type path hotspot_x hotspot_y allowed)
  | Op.SetCustomCursorFromBitmap type cursor_image hotspot_x hotspot_y allowed =>
    Except.ok (SetCustomCursorFromBitmap w type cursor_image hotspot_x hotspot_y allowed)
  | Op.RunDecodeTask decoded => Except.ok (RunDecodeTask w decoded)
  | Op.Forward m => Except.ok (Forward w m)
  | Op.ChannelConnected => Except.ok { w with connected := true }
  | Op.ChannelDisconnected => Except.ok { w with connected := false }
  | Op.PlatformCursorChanged cursor => Except.ok { w with wm_platform_cursor := cursor }

/-- A sequence of operations applied in order; the run ends at the first
operation that ends the process. -/
def run (w : World) : List Op → Except Fault World
  | [] => Except.ok w
  | op :: ops =>
    match step w op with
    | Except.ok w1 => run w1 ops
    | Except.error f => Except.error f

/-- Several messages handed to `sender_->Send` one after the other. -/
def sendAll (w : World) (ms : List Message) : World :=
  { w with sent := w.sent ++ ms }

/-- Messages that `AddRegion` hands to the transport in a given state. -/
def addRegionMessages (w : World) : List Message :=
  match w.region_ with
  | some region =>
    if w.connected && !region.isEmpty then
      [Message.AddRegion w.handle_ region.getBounds.left region.getBounds.top
        region.getBounds.right region.getBounds.bottom]
    else []
  | none => []

/-- Message that `SetCursor()` hands to the transport in a given state. -/
def cursorMessage (w : World) : Message :=
  match w.bitmap_ with
  | some bitmap => Message.CursorSet bitmap.bitmaps bitmap.hotspot
  | none => Message.CursorSet [] ⟨0, 0⟩

/-! ## Concrete windows used in examples -/

/-- A popup with the given bounds whose parent, handle 1, is registered in the
window manager with the given bounds. -/
def popupIn (parent_bounds bounds : Rect) : World :=
  { World.init 2 bounds with
    parent_ := 1
    type_ := WidgetType.POPUP
    wm_windows := [(1, parent_bounds)] }

/-- A freshly constructed window after `SetCustomCursor(kBlank, "", 0, 0,
true)`. -/
def blankCursorWindow : World :=
  { World.init 1 ⟨0, 0, 10, 10⟩ with
    cursor_type_ := CustomCursorType.kBlank
    allowed_cursor_overriding_ := true
    sent := [Message.CursorSet [] ⟨254, 254⟩] }

/-- The window `blankCursorWindow` after a rejected `SetCustomCursor`, a
rejected `SetCursor`, an accepted `SetCustomCursor(kNotUse, "", 0, 0, true)`,
a failed decode reported with `allowed_cursor_overriding = false`, and
`Hide`. -/
def restoredCursorWindow : World :=
  { World.init 1 ⟨0, 0, 10, 10⟩ with
    state_ := WidgetState.HIDE
    cursor_type_ := CustomCursorType.kNotUse
    allowed_cursor_overriding_ := true
    sent := [Message.CursorSet [] ⟨254, 254⟩, Message.CursorSet [] ⟨255, 255⟩] }

/-- A connected window of size 100x100 that was given the shape of the
rectangle (0,0,10,10): it holds that region and has sent its bounding box. -/
def shapedWindow : World :=
  { World.init 1 ⟨0, 0, 100, 100⟩ with
    connected := true
    region_ := some ⟨[⟨0, 0, 10, 10⟩]⟩
    sent := [Message.AddRegion 1 0 0 10 10] }

/-- Messages that `ResetRegion` hands to the transport in a given state. -/
def resetRegionMessages (w : World) : List Message :=
  match w.region_ with
  | some region =>
    if w.connected && !region.isEmpty then
      [Message.SubRegion w.handle_ region.getBounds.left region.getBounds.top
        region.getBounds.right region.getBounds.bottom]
    else []
  | none => []

/-- Applying `ValidateBounds` twice in a row. -/
def ValidateBoundsTwice (w : World) : Except Fault World :=
  ValidateBounds w >>= ValidateBounds

end OzoneWaylandWindow

/-!
# IME surrounding text

A shallow embedding of `InputMethodNevaObserver::OnCaretBoundsChanged` of
`ui/base/ime/neva/input_method_neva_observer.cc`: the selection of the text
input client is turned into positions relative to the surrounding text, and
the text is restricted to `kSurroundingTextMax` bytes around the cursor.

Conventions of the embedding.

* `base::string16` is the list of its UTF-16 code units and `std::string` the
  list of its bytes, both as natural numbers.
* `uint32_t` and `size_t` values are natural numbers; where the code can wrap,
  the modulus is written out (`2^32` for the members of `gfx::Range`, `2^64`
  for `size_t`).
* The call ends in one of three ways: it returns before reaching
  `SetSurroundingText`, it calls `SetSurroundingText`, or
  `std::string::substr` throws `std::out_of_range`.
-/

namespace InputMethodNevaObserver

/-- Largest value of `uint32_t`. -/
def UINT32_MAX : Nat := 4294967295

/-- Number of values of `size_t`. -/
def SIZE_T_RANGE : Nat := 2 ^ 64

/-- Range of `gfx::Range`: a start and an end, each a `uint32_t`; the end may
be below the start.
Modelled from the spec: `ui/gfx/range/range.h` is not part of the sources at
hand; the members and methods below are the ones `OnCaretBoundsChanged`
uses. -/
structure Range where
  start : Nat
  end_ : Nat
deriving DecidableEq

/-- The range `gfx::Range::InvalidRange()`. -/
def Range.InvalidRange : Range := ⟨UINT32_MAX, UINT32_MAX⟩

/-- The method `gfx::Range::IsValid`. -/
def Range.IsValid (r : Range) : Bool := r != Range.InvalidRange

/-- The method `gfx::Range::GetMin`. -/
def Range.GetMin (r : Range) : Nat := if r.start < r.end_ then r.start else r.end_

/-- The method `gfx::Range::GetMax`. -/
def Range.GetMax (r : Range) : Nat := if r.start > r.end_ then r.start else r.end_

/-- The method `gfx::Range::length`. -/
def Range.length (r : Range) : Nat := r.GetMax - r.GetMin

/-- The method `gfx::Range::IsBoundedBy`. -/
def Range.IsBoundedBy (r range : Range) : Bool :=
  r.IsValid && range.IsValid && decide (r.GetMin ≥ range.GetMin) &&
    decide (r.GetMax ≤ range.GetMax)

/-- The method `gfx::Range::set_start`. -/
def Range.set_start (r : Range) (start : Nat) : Range := { r with start := start }

/-- The method `gfx::Range::set_end`. -/
def Range.set_end (r : Range) (end_ : Nat) : Range := { r with end_ := end_ }

/-- Members of a range are values of `uint32_t`. -/
def Range.InBounds (r : Range) : Prop := r.start ≤ UINT32_MAX ∧ r.end_ ≤ UINT32_MAX

/-- Whether the members of a range are values of `uint32_t` is decidable. -/
instance Range.instDecidableInBounds (r : Range) : Decidable r.InBounds :=
  inferInstanceAs (Decidable (r.start ≤ UINT32_MAX ∧ r.end_ ≤ UINT32_MAX))

/-- Subtraction of two `uint32_t` values, which wraps modulo `2^32`. -/
def sub_uint32 (a b : Nat) : Nat := (a + 2 ^ 32 - b) % 2 ^ 32

/-- Bytes of one code point in UTF-8. -/
def utf8_bytes (c : Nat) : List Nat :=
  if c < 0x80 then [c]
  else if c < 0x800 then [0xC0 + c / 64, 0x80 + c % 64]
  else if c < 0x10000 then [0xE0 + c / 4096, 0x80 + c / 64 % 64, 0x80 + c % 64]
  else [0xF0 + c / 262144, 0x80 + c / 4096 % 64, 0x80 + c / 64 % 64, 0x80 + c % 64]

/-- Transcoding of UTF-16 code units that follow an optional pending lead
surrogate: a lead surrogate followed by a trail surrogate gives one code
point, an unpaired surrogate gives U+FFFD, every other code unit is a code
point; each code point gives its UTF-8 bytes. -/
def UTF16ToUTF8.go : Option Nat → List Nat → List Nat
  | none, [] => []
  | some _, [] => utf8_bytes 0xFFFD
  | none, u :: tail =>
    if 0xD800 ≤ u ∧ u < 0xDC00 then UTF16ToUTF8.go (some u) tail
    else if 0xDC00 ≤ u ∧ u < 0xE000 then utf8_bytes 0xFFFD ++ UTF16ToUTF8.go none tail
    else utf8_bytes u ++ UTF16ToUTF8.go none tail
  | some lead, v :: tail =>
    if 0xDC00 ≤ v ∧ v < 0xE000 then
      utf8_bytes (0x10000 + (lead - 0xD800) * 1024 + (v - 0xDC00)) ++ UTF16ToUTF8.go none tail
    else if 0xD800 ≤ v ∧ v < 0xDC00 then utf8_bytes 0xFFFD ++ UTF16ToUTF8.go (some v) tail
    else utf8_bytes 0xFFFD ++ utf8_bytes v ++ UTF16ToUTF8.go none tail

/-- The function `base::UTF16ToUTF8`.
Modelled from the spec: `base/strings/utf_string_conversions.h` is not part of
the sources at hand. This is the standard transcoding; a code unit below 128
gives itself. -/
def UTF16ToUTF8 (utf16 : List Nat) : List Nat :=
  UTF16ToUTF8.go none utf16

/-- The method `std::string::substr(pos, n)`: `none` when it throws
`std::out_of_range`, that is when `pos` is beyond the size of the string. -/
def substr (s : List Nat) (pos n : Nat) : Option (List Nat) :=
  if pos > s.length then none else some ((s.drop pos).take n)

/-- Answers of the `TextInputClient` that `OnCaretBoundsChanged` asks; `none`
stands for a getter that returns `false`. -/
structure TextInputClient where
  GetTextRange : Option Range
  GetTextFromRange : Range → Option (List Nat)
  GetEditableSelectionRange : Option Range
  GetCompositionTextRange : Option Range

/-- Ways in which `OnCaretBoundsChanged` ends. -/
inductive Outcome where
  | returned
  | SetSurroundingText (text : List Nat) (cursor_position anchor_position : Nat)
  | out_of_range
deriving DecidableEq

/-- Constant `kSurroundingTextMax`. -/
def kSurroundingTextMax : Nat := 4000

/-- The local `surround_range` of `OnCaretBoundsChanged` once the composition
range has been looked at (the statements from its declaration to the end of
the `if` on the composition range). -/
def surround_range (client : TextInputClient) (selection_range : Range) : Range :=
  match client.GetCompositionTextRange with
  | some composition_range =>
    if selection_range.IsBoundedBy composition_range then
      (selection_range.set_start
        (min selection_range.GetMin composition_range.GetMin)).set_end
        (min selection_range.GetMax composition_range.GetMin)
    else selection_range
  | none => selection_range

/-- The part of `OnCaretBoundsChanged` from the `if (cursor_position !=
anchor_position)` to the call of `SetSurroundingText`. The references
`leftmost` and `rightmost` are bound once, before `anchor_position` is
changed: with the cursor below the anchor they alias `cursor_position` and
`anchor_position`, otherwise `anchor_position` and `cursor_position`. The
`int` `direction` is converted to `size_t` for the product with
`kSurroundingTextMax`, so `-1` becomes `2^64 - 1`, and product and sum wrap. -/
def restrictSurroundingText (text : List Nat) (anchor_position cursor_position : Nat) :
    Outcome :=
  if cursor_position ≠ anchor_position then
    if cursor_position < anchor_position then
      let direction := 1
      let anchor_position :=
        if anchor_position - cursor_position > kSurroundingTextMax then
          (cursor_position + direction * kSurroundingTextMax % SIZE_T_RANGE) % SIZE_T_RANGE
        else anchor_position
      match substr text cursor_position kSurroundingTextMax with
      | none => Outcome.out_of_range
      | some text =>
        let anchor_position := anchor_position - cursor_position
        let cursor_position := 0
        Outcome.SetSurroundingText text cursor_position anchor_position
    else
      let direction := SIZE_T_RANGE - 1
      let anchor_position :=
        if cursor_position - anchor_position > kSurroundingTextMax then
          (cursor_position + direction * kSurroundingTextMax % SIZE_T_RANGE) % SIZE_T_RANGE
        else anchor_position
      match substr text anchor_position kSurroundingTextMax with
      | none => Outcome.out_of_range
      | some text =>
        let cursor_position := cursor_position - anchor_position
        let anchor_position := 0
        Outcome.SetSurroundingText text cursor_position anchor_position
  else
    let pos :=
      if anchor_position ≤ kSurroundingTextMax then 0
      else anchor_position - kSurroundingTextMax
    let cursor_position := cursor_position - pos
    let anchor_position := cursor_position
    if pos < text.length then
      match substr text pos kSurroundingTextMax with
      | none => Outcome.out_of_range
      | some text => Outcome.SetSurroundingText text cursor_position anchor_position
    else
      Outcome.SetSurroundingText [] cursor_position anchor_position

/-- Method `InputMethodNevaObserver::OnCaretBoundsChanged`. -/
def OnCaretBoundsChanged (client : TextInputClient) : Outcome :=
  match client.GetTextRange with
  | none => Outcome.returned
  | some text_range =>
    match client.GetTextFromRange text_range with
    | none => Outcome.returned
    | some surrounding_text =>
      match client.GetEditableSelectionRange with
      | none => Outcome.returned
      | some selection_range =>
        if !selection_range.IsValid then Outcome.returned
        else
          let surround_range := surround_range client selection_range
          let text := UTF16ToUTF8 surrounding_text
          let anchor_position := sub_uint32 surround_range.start text_range.start
          let cursor_position := sub_uint32 surround_range.end_ text_range.start
          restrictSurroundingText text anchor_position cursor_position

/-- A client whose text is the given ASCII string, at the given text range,
with the given selection and composition ranges. -/
def clientOf (text_range : Range) (text : List Nat) (selection_range : Range)
    (composition_range : Option Range) : TextInputClient :=
  { GetTextRange := some text_range
    GetTextFromRange := fun _ => some text
    GetEditableSelectionRange := some selection_range
    GetCompositionTextRange := composition_range }

end InputMethodNevaObserver

/-!
# Extension process map

A shallow embedding of `extensions::ProcessMap` of
`extensions/browser/process_map.cc`: a `std::set` of items (extension id,
process id, site instance id), ordered by `Item::operator<`.

Conventions of the embedding.

* `std::string` is the list of its bytes, `int` is `Int`.
* `std::set<T>` is the list of its elements in increasing order, which is the
  order in which the iterators of the loops visit them; `insert` and `erase`
  walk that list with `operator<` only, as the container does.
-/

namespace extensions

/-- The comparison `operator<` of `std::string`: lexicographic on the bytes, a
proper prefix being smaller. -/
def string_lt : List Nat → List Nat → Bool
  | [], [] => false
  | [], _ :: _ => true
  | _ :: _, [] => false
  | a :: as, b :: bs => if a < b then true else if b < a then false else string_lt as bs

/-- The method `std::set<T>::insert(value)` on the sorted list of elements:
the new list and whether the value was inserted. A value is already present
when an element is neither smaller nor larger than it. -/
def set_insert {α : Type} (lt : α → α → Bool) : List α → α → List α × Bool
  | [], x => ([x], true)
  | y :: ys, x =>
    if lt x y then (x :: y :: ys, true)
    else if lt y x then ((y :: (set_insert lt ys x).1), (set_insert lt ys x).2)
    else (y :: ys, false)

/-- The method `std::set<T>::erase(key)` on the sorted list of elements: the
new list and the number of elements erased. -/
def set_erase {α : Type} (lt : α → α → Bool) : List α → α → List α × Nat
  | [], _ => ([], 0)
  | y :: ys, x =>
    if lt x y then (y :: ys, 0)
    else if lt y x then ((y :: (set_erase lt ys x).1), (set_erase lt ys x).2)
    else (ys, 1)

/-- Structure `ProcessMap::Item`. -/
structure Item where
  extension_id : List Nat
  process_id : Int
  site_instance_id : Int
deriving DecidableEq

/-- The operator `ProcessMap::Item::operator<`: `operator<` of the tuples made
by `std::tie`, which compares member by member with `<` only. -/
def Item.lt (a b : Item) : Bool :=
  if string_lt a.extension_id b.extension_id then true
  else if string_lt b.extension_id a.extension_id then false
  else if a.process_id < b.process_id then true
  else if b.process_id < a.process_id then false
  else decide (a.site_instance_id < b.site_instance_id)

/-- Class `ProcessMap`: its member `items_`. -/
structure ProcessMap where
  items_ : List Item
deriving DecidableEq

/-- The invariant of `std::set`: the elements are in strictly increasing
order. -/
def ProcessMap.WF (pm : ProcessMap) : Prop :=
  pm.items_.Pairwise fun a b => Item.lt a b = true

/-- The constructor `ProcessMap::ProcessMap`. -/
def ProcessMap.empty : ProcessMap := ⟨[]⟩

/-- Method `ProcessMap::Insert`: the map afterwards and the value returned. -/
def ProcessMap.Insert (pm : ProcessMap) (extension_id : List Nat)
    (process_id site_instance_id : Int) : ProcessMap × Bool :=
  let r := set_insert Item.lt pm.items_ ⟨extension_id, process_id, site_instance_id⟩
  (⟨r.1⟩, r.2)

/-- Method `ProcessMap::Remove`: the map afterwards and the value returned. -/
def ProcessMap.Remove (pm : ProcessMap) (extension_id : List Nat)
    (process_id site_instance_id : Int) : ProcessMap × Bool :=
  let r := set_erase Item.lt pm.items_ ⟨extension_id, process_id, site_instance_id⟩
  (⟨r.1⟩, decide (r.2 > 0))

/-- The loop of `ProcessMap::RemoveAllFromProcess` from a given iterator
position on, with the current value of `result`: the elements kept and the
final value of `result`. -/
def RemoveAllFromProcess.loop (process_id : Int) : List Item → Int → List Item × Int
  | [], result => ([], result)
  | item :: rest, result =>
    if item.process_id = process_id then
      RemoveAllFromProcess.loop process_id rest (result + 1)
    else
      (item :: (RemoveAllFromProcess.loop process_id rest result).1,
        (RemoveAllFromProcess.loop process_id rest result).2)

/-- Method `ProcessMap::RemoveAllFromProcess`: the map afterwards and the
value returned. -/
def ProcessMap.RemoveAllFromProcess (pm : ProcessMap) (process_id : Int) :
    ProcessMap × Int :=
  let r := RemoveAllFromProcess.loop process_id pm.items_ 0
  (⟨r.1⟩, r.2)

/-- Method `ProcessMap::Contains(extension_id, process_id)`. -/
def ProcessMap.Contains (pm : ProcessMap) (extension_id : List Nat) (process_id : Int) :
    Bool :=
  pm.items_.any fun item =>
    decide (item.process_id = process_id) && decide (item.extension_id = extension_id)

/-- Method `ProcessMap::Contains(process_id)`. -/
def ProcessMap.ContainsProcess (pm : ProcessMap) (process_id : Int) : Bool :=
  pm.items_.any fun item => decide (item.process_id = process_id)

/-- Method `ProcessMap::GetExtensionsInProcess`: the resulting
`std::set<std::string>`, as its sorted list. -/
def ProcessMap.GetExtensionsInProcess (pm : ProcessMap) (process_id : Int) :
    List (List Nat) :=
  pm.items_.foldl
    (fun result item =>
      if item.process_id = process_id then (set_insert string_lt result item.extension_id).1
      else result)
    []

/-- A map with two extensions in process 7 and one in process 8. -/
def exampleMap : ProcessMap :=
  ⟨[⟨[97], 7, 1⟩, ⟨[97], 8, 1⟩, ⟨[98], 7, 2⟩]⟩

end extensions

namespace OzoneWaylandWindow

/-! ## Bounds validation -/

/-- With a parent that is set and registered, `ValidateBounds` returns, and
returns the window with a new origin only. -/
theorem ValidateBounds_eq (w : World) (pb : Rect)
    (hparent : w.parent_ ≠ 0) (hpb : GetWindowBounds w w.parent_ = some pb) :
    ValidateBounds w = Except.ok { w with bounds_ := w.bounds_.set_origin (Point.mk
      (if w.bounds_.x - pb.x < pb.x then pb.x
        else if w.bounds_.x - pb.x + w.bounds_.width > pb.width
          then w.bounds_.x - pb.x - (w.bounds_.x - pb.x + w.bounds_.width - pb.width)
          else w.bounds_.x - pb.x)
      (if w.bounds_.y - pb.y < pb.y then pb.y
        else if w.bounds_.y - pb.y + w.bounds_.height > pb.height
          then w.bounds_.y - pb.y - (w.bounds_.y - pb.y + w.bounds_.height - pb.height)
          else w.bounds_.y - pb.y)) } := by
  unfold ValidateBounds
  simp [hparent, hpb]

/-- C1: for a window whose parent handle is set and whose parent has bounds
(px, py, pw, ph), `ValidateBounds` returns the window with its origin replaced
by (x', y') and nothing else changed (width and height in particular), where
x0 = bx - px and x' = px if x0 < px, else x0 - (x0 + w - pw) if x0 + w > pw,
else x0, and y' likewise from by, py, h and ph. -/
theorem C1_ValidateBounds_clamp (w : World) (px py pw ph : Int)
    (hparent : w.parent_ ≠ 0)
    (hpb : GetWindowBounds w w.parent_ = some ⟨px, py, pw, ph⟩) :
    ValidateBounds w = Except.ok { w with bounds_ :=
      { x :=
          if w.bounds_.x - px < px then px
          else if w.bounds_.x - px + w.bounds_.width > pw
            then w.bounds_.x - px - (w.bounds_.x - px + w.bounds_.width - pw)
            else w.bounds_.x - px
        y :=
          if w.bounds_.y - py < py then py
          else if w.bounds_.y - py + w.bounds_.height > ph
            then w.bounds_.y - py - (w.bounds_.y - py + w.bounds_.height - ph)
            else w.bounds_.y - py
        width := w.bounds_.width
        height := w.bounds_.height } } := by
  rw [ValidateBounds_eq w ⟨px, py, pw, ph⟩ hparent hpb]
  rfl

/-- C1, the worked case of the specification: parent (0,0,300,300) and child
(350,10,50,50) give origin (250,10) with size 50x50. -/
theorem C1_ValidateBounds_clamp_witness :
    ValidateBounds (popupIn ⟨0, 0, 300, 300⟩ ⟨350, 10, 50, 50⟩) =
      Except.ok (popupIn ⟨0, 0, 300, 300⟩ ⟨250, 10, 50, 50⟩) :=
  (C1_ValidateBounds_clamp (popupIn ⟨0, 0, 300, 300⟩ ⟨350, 10, 50, 50⟩) 0 0 300 300
    (by decide) (by decide)).trans (by decide)

/-- C2, the code at a failing input: parent (100,100,300,300), popup
(120,120,250,50), no wider and no taller than the parent and lying inside it.
The offset from the parent is (20,20); 20 is below the parent's own x of 100,
so the origin becomes (100,100), and the window, read relative to the parent's
origin, then ends at 100 + 250 = 350, beyond the parent's width of 300. -/
theorem C2_ValidateBounds_leaves_parent :
    ValidateBounds (popupIn ⟨100, 100, 300, 300⟩ ⟨120, 120, 250, 50⟩) =
        Except.ok (popupIn ⟨100, 100, 300, 300⟩ ⟨100, 100, 250, 50⟩) ∧
      (250 : Int) ≤ 300 ∧ (50 : Int) ≤ 300 ∧
      ¬ ((popupIn ⟨100, 100, 300, 300⟩ ⟨100, 100, 250, 50⟩).bounds_.x +
          (popupIn ⟨100, 100, 300, 300⟩ ⟨100, 100, 250, 50⟩).bounds_.width ≤ 300) := by
  decide

/-- With the parent at the origin (0,0) and a window no wider and no taller
than its parent, the validated window lies inside the parent. -/
theorem ValidateBounds_inside_of_parent_at_origin (w : World) (pw ph : Int)
    (hparent : w.parent_ ≠ 0)
    (hpb : GetWindowBounds w w.parent_ = some ⟨0, 0, pw, ph⟩)
    (hw : w.bounds_.width ≤ pw) (hh : w.bounds_.height ≤ ph) :
    ∃ w1, ValidateBounds w = Except.ok w1 ∧
      0 ≤ w1.bounds_.x ∧ w1.bounds_.x + w1.bounds_.width ≤ pw ∧
      0 ≤ w1.bounds_.y ∧ w1.bounds_.y + w1.bounds_.height ≤ ph := by
  refine ⟨_, ValidateBounds_eq w ⟨0, 0, pw, ph⟩ hparent hpb, ?_⟩
  simp only [Rect.set_origin]
  refine ⟨?_, ?_, ?_, ?_⟩ <;> split_ifs <;> omega

/-- C3, refuted as stated: a second `ValidateBounds` changes the window again,
(a) when the window is wider than its parent: parent (0,0,100,100), window
(-5,0,200,50) gives origin (0,0) once and (-100,0) twice; (b) when the parent
is not at the origin: parent (100,100,300,300), window (350,350,50,50) gives
origin (250,250) once and (150,150) twice. -/
theorem C3_ValidateBounds_not_idempotent :
    (ValidateBounds (popupIn ⟨0, 0, 100, 100⟩ ⟨-5, 0, 200, 50⟩) =
        Except.ok (popupIn ⟨0, 0, 100, 100⟩ ⟨0, 0, 200, 50⟩) ∧
      ValidateBoundsTwice (popupIn ⟨0, 0, 100, 100⟩ ⟨-5, 0, 200, 50⟩) =
        Except.ok (popupIn ⟨0, 0, 100, 100⟩ ⟨-100, 0, 200, 50⟩) ∧
      ValidateBoundsTwice (popupIn ⟨0, 0, 100, 100⟩ ⟨-5, 0, 200, 50⟩) ≠
        ValidateBounds (popupIn ⟨0, 0, 100, 100⟩ ⟨-5, 0, 200, 50⟩)) ∧
    (ValidateBounds (popupIn ⟨100, 100, 300, 300⟩ ⟨350, 350, 50, 50⟩) =
        Except.ok (popupIn ⟨100, 100, 300, 300⟩ ⟨250, 250, 50, 50⟩) ∧
      ValidateBoundsTwice (popupIn ⟨100, 100, 300, 300⟩ ⟨350, 350, 50, 50⟩) =
        Except.ok (popupIn ⟨100, 100, 300, 300⟩ ⟨150, 150, 50, 50⟩) ∧
      ValidateBoundsTwice (popupIn ⟨100, 100, 300, 300⟩ ⟨350, 350, 50, 50⟩) ≠
        ValidateBounds (popupIn ⟨100, 100, 300, 300⟩ ⟨350, 350, 50, 50⟩)) := by
  decide

/-- C3 as amended: for a window with a parent set whose parent is at the
origin (0,0) and which is no wider and no taller than its parent, applying
`ValidateBounds` twice (parent bounds unchanged in between) yields the same
window as applying it once. -/
theorem C3_ValidateBounds_idempotent (w : World) (pw ph : Int)
    (hparent : w.parent_ ≠ 0)
    (hpb : GetWindowBounds w w.parent_ = some ⟨0, 0, pw, ph⟩)
    (hw : w.bounds_.width ≤ pw) (hh : w.bounds_.height ≤ ph) :
    ValidateBoundsTwice w = ValidateBounds w := by
  unfold ValidateBoundsTwice
  rw [ValidateBounds_eq w ⟨0, 0, pw, ph⟩ hparent hpb]
  show ValidateBounds _ = _
  rw [ValidateBounds_eq _ ⟨0, 0, pw, ph⟩ (by exact hparent) (by exact hpb)]
  congr 2
  simp only [Rect.set_origin, sub_zero]
  congr 1 <;> split_ifs <;> omega

/-- C3 as amended, at parent (0,0,300,300) and window (350,10,50,50). -/
theorem C3_ValidateBounds_idempotent_witness :
    ValidateBoundsTwice (popupIn ⟨0, 0, 300, 300⟩ ⟨350, 10, 50, 50⟩) =
      ValidateBounds (popupIn ⟨0, 0, 300, 300⟩ ⟨350, 10, 50, 50⟩) :=
  C3_ValidateBounds_idempotent (popupIn ⟨0, 0, 300, 300⟩ ⟨350, 10, 50, 50⟩) 300 300
    (by decide) (by decide) (by decide) (by decide)

/-- C4, refuted as stated: parent (100,100,300,300) and window
(250,250,50,50), which lies inside the parent's rectangle; `ValidateBounds`
moves the window to (150,150), its offset from the parent's origin. -/
theorem C4_ValidateBounds_moves_inner_window :
    ((100 : Int) ≤ 250 ∧ (250 : Int) + 50 ≤ 100 + 300) ∧
    ValidateBounds (popupIn ⟨100, 100, 300, 300⟩ ⟨250, 250, 50, 50⟩) =
      Except.ok (popupIn ⟨100, 100, 300, 300⟩ ⟨150, 150, 50, 50⟩) ∧
    ValidateBounds (popupIn ⟨100, 100, 300, 300⟩ ⟨250, 250, 50, 50⟩) ≠
      Except.ok (popupIn ⟨100, 100, 300, 300⟩ ⟨250, 250, 50, 50⟩) := by
  decide

/-- C4 as amended: for a window with a parent set whose parent is at the
origin (0,0) and whose rectangle lies fully inside its parent's rectangle,
`ValidateBounds` is a no-op: it returns the window as it was. -/
theorem C4_ValidateBounds_noop_inside (w : World) (pw ph : Int)
    (hparent : w.parent_ ≠ 0)
    (hpb : GetWindowBounds w w.parent_ = some ⟨0, 0, pw, ph⟩)
    (hx : 0 ≤ w.bounds_.x) (hr : w.bounds_.x + w.bounds_.width ≤ 0 + pw)
    (hy : 0 ≤ w.bounds_.y) (hb : w.bounds_.y + w.bounds_.height ≤ 0 + ph) :
    ValidateBounds w = Except.ok w := by
  rw [ValidateBounds_eq w ⟨0, 0, pw, ph⟩ hparent hpb]
  have e : ∀ (a b : World), a = b → (Except.ok a : Except Fault World) = Except.ok b :=
    fun _ _ h => by rw [h]
  apply e
  cases w with
  | mk =>
    simp only [Rect.set_origin, sub_zero] at *
    congr 1
    rename_i bounds _ _ _ _ _ _ _ _ _ _ _ _ _ _ _ _ _ _ _
    cases bounds
    simp only at *
    congr 1 <;> split_ifs <;> omega

/-- C4 as amended, at parent (0,0,300,300) and window (20,30,50,50). -/
theorem C4_ValidateBounds_noop_inside_witness :
    ValidateBounds (popupIn ⟨0, 0, 300, 300⟩ ⟨20, 30, 50, 50⟩) =
      Except.ok (popupIn ⟨0, 0, 300, 300⟩ ⟨20, 30, 50, 50⟩) :=
  C4_ValidateBounds_noop_inside (popupIn ⟨0, 0, 300, 300⟩ ⟨20, 30, 50, 50⟩) 300 300
    (by decide) (by decide) (by decide) (by decide) (by decide) (by decide)

/-- C5, refuted as stated: in a build with `DCHECK_IS_ON()`, a window whose
parent handle is unset makes `DCHECK(parent_)` fail, which ends the process. -/
theorem C5_ValidateBounds_dcheck_fails :
    ({ World.init 1 ⟨0, 0, 10, 10⟩ with dcheck_is_on := true }).parent_ = 0 ∧
    ValidateBounds { World.init 1 ⟨0, 0, 10, 10⟩ with dcheck_is_on := true } =
      Except.error Fault.dcheck_failed ∧
    ValidateBounds { World.init 1 ⟨0, 0, 10, 10⟩ with dcheck_is_on := true } ≠
      Except.ok { World.init 1 ⟨0, 0, 10, 10⟩ with dcheck_is_on := true } := by
  decide

/-- C5 as amended: in a build in which `DCHECK` is compiled out, for a window
whose parent handle is unset (0) `ValidateBounds` is a no-op and not an
error: it returns, and the bounds, every other member of the window and the
messages handed to the transport are as before. -/
theorem C5_ValidateBounds_unset_parent (w : World)
    (hdcheck : w.dcheck_is_on = false) (hparent : w.parent_ = 0) :
    ValidateBounds w = Except.ok w := by
  unfold ValidateBounds
  simp [hdcheck, hparent]

/-- C5 as amended, at a freshly constructed window. -/
theorem C5_ValidateBounds_unset_parent_witness :
    ValidateBounds (World.init 1 ⟨0, 0, 10, 10⟩) = Except.ok (World.init 1 ⟨0, 0, 10, 10⟩) :=
  C5_ValidateBounds_unset_parent (World.init 1 ⟨0, 0, 10, 10⟩) (by decide) (by decide)

/-! ## Sending, in terms of `sendAll` -/

theorem sendAll_nil (w : World) : sendAll w [] = w := by
  cases w
  simp [sendAll]

theorem Send_eq (w : World) (m : Message) : Send w m = sendAll w [m] := rfl

theorem sendAll_sendAll (w : World) (a b : List Message) :
    sendAll (sendAll w a) b = sendAll w (a ++ b) := by
  simp [sendAll, List.append_assoc]

theorem sendAll_handle (w : World) (a : List Message) : (sendAll w a).handle_ = w.handle_ := rfl

theorem sendAll_parent (w : World) (a : List Message) : (sendAll w a).parent_ = w.parent_ := rfl

theorem sendAll_bounds (w : World) (a : List Message) : (sendAll w a).bounds_ = w.bounds_ := rfl

theorem sendAll_type (w : World) (a : List Message) : (sendAll w a).type_ = w.type_ := rfl

theorem sendAll_state (w : World) (a : List Message) : (sendAll w a).state_ = w.state_ := rfl

theorem sendAll_title (w : World) (a : List Message) : (sendAll w a).title_ = w.title_ := rfl

theorem sendAll_region (w : World) (a : List Message) : (sendAll w a).region_ = w.region_ := rfl

theorem sendAll_bitmap (w : World) (a : List Message) : (sendAll w a).bitmap_ = w.bitmap_ := rfl

theorem sendAll_init_window (w : World) (a : List Message) :
    (sendAll w a).init_window_ = w.init_window_ := rfl

theorem sendAll_connected (w : World) (a : List Message) :
    (sendAll w a).connected = w.connected := rfl

theorem sendAll_allowed (w : World) (a : List Message) :
    (sendAll w a).allowed_cursor_overriding_ = w.allowed_cursor_overriding_ := rfl

theorem sendAll_sent (w : World) (a : List Message) : (sendAll w a).sent = w.sent ++ a := rfl

theorem addRegionMessages_sendAll (w : World) (a : List Message) :
    addRegionMessages (sendAll w a) = addRegionMessages w := rfl

theorem cursorMessage_sendAll (w : World) (a : List Message) :
    cursorMessage (sendAll w a) = cursorMessage w := rfl

theorem AddRegion_eq (w : World) : AddRegion w = sendAll w (addRegionMessages w) := by
  unfold AddRegion addRegionMessages
  split
  · split
    · rfl
    · exact (sendAll_nil w).symm
  · exact (sendAll_nil w).symm

theorem SetCursorNoArg_eq (w : World) : SetCursorNoArg w = sendAll w [cursorMessage w] := by
  unfold SetCursorNoArg cursorMessage
  split <;> rfl

theorem SendWidgetState_eq (w : World) :
    SendWidgetState w =
      sendAll w (if w.connected then [Message.State w.handle_ w.state_] else []) := by
  unfold SendWidgetState
  cases hc : w.connected
  · simpa using (sendAll_nil w).symm
  · simp [Send_eq]

theorem step_sendAll (w : World) (a : List Message) (c : Prop) [Decidable c] (m : Message) :
    (if c then Send (sendAll w a) m else sendAll w a) = sendAll w (a ++ if c then [m] else []) := by
  split
  · rw [Send_eq, sendAll_sendAll]
  · rw [List.append_nil]

theorem DeferredSendingToGpu_eq (w : World) :
    DeferredSendingToGpu w = sendAll w
      ([Message.Create w.handle_] ++
        (if w.init_window_ then
          [Message.InitWindow w.handle_ w.parent_ w.bounds_ w.type_] else []) ++
        (if w.state_ ≠ WidgetState.UNINITIALIZED then
          [Message.State w.handle_ w.state_] else []) ++
        (if w.title_.length ≠ 0 then [Message.Title w.handle_ w.title_] else []) ++
        addRegionMessages w ++
        (if w.bitmap_.isSome then [cursorMessage w] else [])) := by
  unfold DeferredSendingToGpu
  lift_lets
  extract_lets w1 w2 w3 w4 w5
  have e1 : w1 = sendAll w [Message.Create w.handle_] := rfl
  have e2 : w2 = sendAll w ([Message.Create w.handle_] ++
      (if w.init_window_ then
          [Message.InitWindow w.handle_ w.parent_ w.bounds_ w.type_] else [])) := by
    show (if w1.init_window_ then _ else w1) = _
    rw [e1]
    exact step_sendAll w _ _ _
  have e3 : w3 = sendAll w ([Message.Create w.handle_] ++
      (if w.init_window_ then
          [Message.InitWindow w.handle_ w.parent_ w.bounds_ w.type_] else []) ++
        (if w.state_ ≠ WidgetState.UNINITIALIZED then
          [Message.State w.handle_ w.state_] else [])) := by
    show (if w2.state_ ≠ _ then _ else w2) = _
    rw [e2]
    exact step_sendAll w _ _ _
  have e4 : w4 = sendAll w ([Message.Create w.handle_] ++
      (if w.init_window_ then
          [Message.InitWindow w.handle_ w.parent_ w.bounds_ w.type_] else []) ++
        (if w.state_ ≠ WidgetState.UNINITIALIZED then
          [Message.State w.handle_ w.state_] else []) ++
        (if w.title_.length ≠ 0 then [Message.Title w.handle_ w.title_] else [])) := by
    show (if w3.title_.length ≠ 0 then _ else w3) = _
    rw [e3]
    exact step_sendAll w _ _ _
  have e5 : w5 = sendAll w ([Message.Create w.handle_] ++
      (if w.init_window_ then
          [Message.InitWindow w.handle_ w.parent_ w.bounds_ w.type_] else []) ++
        (if w.state_ ≠ WidgetState.UNINITIALIZED then
          [Message.State w.handle_ w.state_] else []) ++
        (if w.title_.length ≠ 0 then [Message.Title w.handle_ w.title_] else []) ++
        addRegionMessages w) := by
    show AddRegion w4 = _
    rw [AddRegion_eq, e4, addRegionMessages_sendAll, sendAll_sendAll]
  clear_value w1 w2 w3 w4 w5
  rw [e5, SetCursorNoArg_eq, cursorMessage_sendAll, sendAll_sendAll, sendAll_bitmap]
  split
  · rfl
  · rw [List.append_nil]

/-! ## Messages and the transport -/

/-- A string has length zero exactly when it is the empty string. -/
theorem String_length_eq_zero_iff (s : String) : s.length = 0 ↔ s = "" := by
  constructor
  · intro h
    apply String.ext
    have h1 : s.data.length = 0 := h
    exact List.length_eq_zero.mp h1
  · intro h
    rw [h]
    rfl

/-- C6, refuted as stated, on a freshly constructed window whose transport
is not connected: `SetBounds` to a new origin hands a `MoveWindow` message to
`sender_->Send`, and `SetCustomCursor` with type `kBlank` hands a `CursorSet`
message to `sender_->Send`. Neither asks `sender_->IsConnected()` first. -/
theorem C6_sends_while_disconnected :
    (World.init 1 ⟨0, 0, 100, 100⟩).connected = false ∧
    SetBounds (World.init 1 ⟨0, 0, 100, 100⟩) ⟨10, 20, 100, 100⟩ =
      Except.ok { World.init 1 ⟨10, 20, 100, 100⟩ with
        sent := [Message.MoveWindow 1 0 WidgetType.WINDOWFRAMELESS ⟨10, 20, 100, 100⟩],
        delegate_calls := [DelegateCall.OnBoundsChanged ⟨10, 20, 100, 100⟩] } ∧
    (SetCustomCursor (World.init 1 ⟨0, 0, 100, 100⟩) CustomCursorType.kBlank "" 0 0 false).sent =
      [Message.CursorSet [] ⟨254, 254⟩] := by
  decide

/-- A call of `ValidateBounds` that returns has changed the bounds at most. -/
theorem ValidateBounds_ok (w w1 : World) (h : ValidateBounds w = Except.ok w1) :
    ∃ b, w1 = { w with bounds_ := b } := by
  unfold ValidateBounds at h
  split_ifs at h with h1 h2
  · cases h
    exact ⟨w.bounds_, rfl⟩
  · split at h
    · cases h
    · cases h
      exact ⟨_, rfl⟩

/-- A call of `InitPlatformWindow` that returns with the transport not
connected has handed nothing to it. -/
theorem InitPlatformWindow_silent (w w1 : World) (type : PlatformWindowType)
    (parent_window : Nat) (hc : w.connected = false)
    (h : InitPlatformWindow w type parent_window = Except.ok w1) : w1.sent = w.sent := by
  unfold InitPlatformWindow at h
  cases type
  case kPopup | kMenu =>
    simp only [bind, Except.bind] at h
    split at h
    · cases h
    · rename_i v hv
      obtain ⟨b, rfl⟩ := ValidateBounds_ok _ _ hv
      simp only [hc, Bool.not_false, if_true] at h
      cases h
      rfl
  all_goals
    simp only [bind, Except.bind, hc, Bool.not_false, if_true] at h
    cases h
    rfl

/-- The operations that ask `sender_->IsConnected()` before sending hand
nothing to the transport while it is not connected. -/
theorem guarded_operations_silent_while_disconnected (w : World) (h : w.connected = false) :
    (∀ type parent_window w1, InitPlatformWindow w type parent_window = Except.ok w1 →
      w1.sent = w.sent) ∧
    (∀ title, (SetTitle w title).sent = w.sent) ∧
    (∀ inactive, (Show w inactive).sent = w.sent) ∧
    (Hide w).sent = w.sent ∧
    (Restore w).sent = w.sent ∧
    (∀ path, (SetWindowShape w path).sent = w.sent) ∧
    (∀ opacity, (SetOpacity w opacity).sent = w.sent) ∧
    (∀ cursor, (SetCursor w cursor).sent = w.sent) ∧
    (OnGpuProcessLaunched w).sent = w.sent := by
  refine ⟨?_, ?_, ?_, ?_, ?_, ?_, ?_, ?_, ?_⟩
  · intro type parent_window w1 h1
    exact InitPlatformWindow_silent w w1 type parent_window h h1
  · intro title
    simp [SetTitle, h]
  · intro inactive
    simp [Show, SendWidgetState, h]
  · simp only [Hide, SendWidgetState_eq, OnCloseRequest]
    split_ifs <;> simp_all [sendAll]
  · simp [Restore, SendWidgetState, h]
  · intro path
    unfold SetWindowShape ResetRegion AddRegion
    cases hr : w.region_ <;> simp [h, hr] <;> split_ifs <;> simp
  · intro opacity
    unfold SetOpacity ResetRegion AddRegion
    cases hr : w.region_ <;> simp [h, hr] <;> split_ifs <;> simp
  · intro cursor
    unfold SetCursor
    split_ifs <;> simp_all
  · simp [OnGpuProcessLaunched, h]

/-- A call of `SetBounds` that returns has set the bounds, handed one
`MoveWindow` to the transport when the origin changed (connected or not), and
told the delegate; nothing else changed. -/
theorem SetBounds_ok (w w1 : World) (bounds : Rect) (h : SetBounds w bounds = Except.ok w1) :
    ∃ b, w1 =
      { w with
        bounds_ := b
        sent := w.sent ++
          (if w.bounds_.x ≠ b.x ∨ w.bounds_.y ≠ b.y then
            [Message.MoveWindow w.handle_ w.parent_ w.type_ b]
          else [])
        delegate_calls := w.delegate_calls ++ [DelegateCall.OnBoundsChanged b] } := by
  unfold SetBounds at h
  simp only [bind, Except.bind] at h
  by_cases ht : w.type_ = WidgetType.TOOLTIP
  · rw [if_pos ht] at h
    cases hv : ValidateBounds { w with bounds_ := bounds } with
    | error e =>
      rw [hv] at h
      cases h
    | ok v =>
      rw [hv] at h
      obtain ⟨b, rfl⟩ := ValidateBounds_ok _ _ hv
      refine ⟨b, ?_⟩
      simp only at h
      split at h
      · rename_i hc
        cases h
        simp [OnBoundsChanged, Send, hc]
      · rename_i hc
        cases h
        simp [OnBoundsChanged, hc]
  · rw [if_neg ht] at h
    refine ⟨bounds, ?_⟩
    split at h
    · rename_i hc
      cases h
      simp [OnBoundsChanged, Send, hc]
    · rename_i hc
      cases h
      simp [OnBoundsChanged, hc]

/-- What a call of `SetBounds` that returns has handed to the transport. -/
theorem SetBounds_sent (w w1 : World) (bounds : Rect) (h : SetBounds w bounds = Except.ok w1) :
    w1.connected = w.connected ∧
    w1.sent = w.sent ++
      (if w.bounds_.x ≠ w1.bounds_.x ∨ w.bounds_.y ≠ w1.bounds_.y then
        [Message.MoveWindow w.handle_ w.parent_ w.type_ w1.bounds_]
      else []) := by
  obtain ⟨b, rfl⟩ := SetBounds_ok w w1 bounds h
  exact ⟨rfl, rfl⟩

/-- With the transport not connected, a state change that follows `SetBounds`
adds nothing to what `SetBounds` handed to the transport. -/
theorem SetBounds_then_state_sent (w v : World) (bounds : Rect) (state : WidgetState)
    (hc : w.connected = false) (hv : SetBounds w bounds = Except.ok v) :
    (SendWidgetState { v with state_ := state }).sent = w.sent ++
      (if w.bounds_.x ≠ (SendWidgetState { v with state_ := state }).bounds_.x ∨
          w.bounds_.y ≠ (SendWidgetState { v with state_ := state }).bounds_.y then
        [Message.MoveWindow w.handle_ w.parent_ w.type_
          (SendWidgetState { v with state_ := state }).bounds_]
      else []) := by
  obtain ⟨hvc, hvs⟩ := SetBounds_sent w v bounds hv
  rw [SendWidgetState_eq]
  have hc2 : ({ v with state_ := state } : World).connected = false := hvc.trans hc
  rw [hc2]
  simp only [Bool.false_eq_true, if_false, sendAll, List.append_nil]
  exact hvs

/-- What `SetCustomCursor` hands to the transport, connected or not: nothing,
or, for a request other than `kPath` in a build with `OS_WEBOS`, one
`CursorSet` without bitmap at the hide hotspot (`kBlank`) or the restore
hotspot. -/
theorem SetCustomCursor_sent (w : World) (type : CustomCursorType) (path : String)
    (hotspot_x hotspot_y : Int) (allowed : Bool) :
    (SetCustomCursor w type path hotspot_x hotspot_y allowed).sent = w.sent ∨
    (type ≠ CustomCursorType.kPath ∧ w.os_webos = true ∧
      (SetCustomCursor w type path hotspot_x hotspot_y allowed).sent = w.sent ++
        [Message.CursorSet []
          (if type = CustomCursorType.kBlank then ⟨254, 254⟩ else ⟨255, 255⟩)]) := by
  cases w with
  | mk =>
    rename_i os_webos _ _ _ _ _ _ _ _ _ _ _ _ cursor_type allowed0 _ _ _ _ cursor _ _ _
    cases type <;> cases allowed <;> cases allowed0 <;> cases os_webos <;>
      cases cursor_type <;> cases cursor <;>
      simp [SetCustomCursor, Send, lsm_cursor_hide_location, lsm_cursor_restore_location]

/-- C6 as amended: for every window state with the transport not connected,
(a) `InitPlatformWindow`, `SetTitle`, `Show`, `Hide`, `Restore`,
`SetWindowShape`, `SetOpacity` and `SetCursor` hand no message to the
transport; (b) `SetBounds`, and `ToggleFullscreen`, `Maximize` and `Minimize`
through it, hand exactly one message to `sender_->Send`, a `MoveWindow` with
the new bounds, when the origin of the window changes, and none otherwise;
(c) `SetCustomCursor` hands at most one message to `sender_->Send`, a
`CursorSet` without bitmap at the hide or restore hotspot, and only for a
request other than `kPath` in a build with `OS_WEBOS`. No `InitWindow`,
`State`, `Title`, `AddRegion` or `SubRegion` message is handed over by any of
these operations. -/
theorem C6_disconnected_operations (w : World) (h : w.connected = false) :
    ((∀ type parent_window w1, InitPlatformWindow w type parent_window = Except.ok w1 →
        w1.sent = w.sent) ∧
      (∀ title, (SetTitle w title).sent = w.sent) ∧
      (∀ inactive, (Show w inactive).sent = w.sent) ∧
      (Hide w).sent = w.sent ∧
      (Restore w).sent = w.sent ∧
      (∀ path, (SetWindowShape w path).sent = w.sent) ∧
      (∀ opacity, (SetOpacity w opacity).sent = w.sent) ∧
      (∀ cursor, (SetCursor w cursor).sent = w.sent)) ∧
    ((∀ bounds w1, SetBounds w bounds = Except.ok w1 →
        w1.sent = w.sent ++
          (if w.bounds_.x ≠ w1.bounds_.x ∨ w.bounds_.y ≠ w1.bounds_.y then
            [Message.MoveWindow w.handle_ w.parent_ w.type_ w1.bounds_] else [])) ∧
      (∀ w1, ToggleFullscreen w = Except.ok w1 →
        w1.sent = w.sent ++
          (if w.bounds_.x ≠ w1.bounds_.x ∨ w.bounds_.y ≠ w1.bounds_.y then
            [Message.MoveWindow w.handle_ w.parent_ w.type_ w1.bounds_] else [])) ∧
      (∀ w1, Maximize w = Except.ok w1 →
        w1.sent = w.sent ++
          (if w.bounds_.x ≠ w1.bounds_.x ∨ w.bounds_.y ≠ w1.bounds_.y then
            [Message.MoveWindow w.handle_ w.parent_ w.type_ w1.bounds_] else [])) ∧
      (∀ w1, Minimize w = Except.ok w1 →
        w1.sent = w.sent ++
          (if w.bounds_.x ≠ w1.bounds_.x ∨ w.bounds_.y ≠ w1.bounds_.y then
            [Message.MoveWindow w.handle_ w.parent_ w.type_ w1.bounds_] else []))) ∧
    (∀ type path hotspot_x hotspot_y allowed,
      (SetCustomCursor w type path hotspot_x hotspot_y allowed).sent = w.sent ∨
      (type ≠ CustomCursorType.kPath ∧ w.os_webos = true ∧
        (SetCustomCursor w type path hotspot_x hotspot_y allowed).sent = w.sent ++
          [Message.CursorSet []
            (if type = CustomCursorType.kBlank then ⟨254, 254⟩ else ⟨255, 255⟩)])) := by
  obtain ⟨g1, g2, g3, g4, g5, g6, g7, g8, _⟩ :=
    guarded_operations_silent_while_disconnected w h
  refine ⟨⟨g1, g2, g3, g4, g5, g6, g7, g8⟩, ⟨?_, ?_, ?_, ?_⟩, ?_⟩
  · intro bounds w1 h1
    exact (SetBounds_sent w w1 bounds h1).2
  · intro w1 h1
    unfold ToggleFullscreen at h1
    split at h1
    · cases h1
    · simp only [bind, Except.bind] at h1
      split at h1
      · cases h1
      · rename_i v hv
        cases h1
        exact SetBounds_then_state_sent w v _ _ h hv
  · intro w1 h1
    unfold Maximize at h1
    split at h1
    · cases h1
    · simp only [bind, Except.bind] at h1
      split at h1
      · cases h1
      · rename_i v hv
        cases h1
        exact SetBounds_then_state_sent w v _ _ h hv
  · intro w1 h1
    unfold Minimize at h1
    simp only [bind, Except.bind] at h1
    split at h1
    · cases h1
    · rename_i v hv
      cases h1
      exact SetBounds_then_state_sent w v _ _ h hv
  · intro type path hotspot_x hotspot_y allowed
    exact SetCustomCursor_sent w type path hotspot_x hotspot_y allowed

/-- C6 as amended, at a freshly constructed window whose transport is not
connected: `SetTitle` hands nothing to the transport. -/
theorem C6_disconnected_operations_witness :
    (World.init 1 ⟨0, 0, 100, 100⟩).connected = false ∧
    (SetTitle (World.init 1 ⟨0, 0, 100, 100⟩) "title").sent = [] :=
  ⟨by decide, (C6_disconnected_operations (World.init 1 ⟨0, 0, 100, 100⟩) (by decide)).1.2.1
    "title"⟩

/-- C7: `OnGpuProcessLaunched` changes nothing but the messages handed to the
transport. With the transport connected it appends, in this order and each at
most once: Create(handle); InitWindow(handle, parent, bounds, type) iff
`InitPlatformWindow` was requested; State(state) iff the state is not
UNINITIALIZED; Title(title) iff the title is non-empty; AddRegion(bounding box)
iff a non-empty region is stored; CursorSet(stored bitmap) iff a bitmap is
stored. With the transport not connected it appends nothing. The sequence is
a function of the window's current members only. -/
theorem C7_OnGpuProcessLaunched_replay (w : World) :
    OnGpuProcessLaunched w = { w with sent := w.sent ++
      (if w.connected then
        [Message.Create w.handle_] ++
        (if w.init_window_ then
          [Message.InitWindow w.handle_ w.parent_ w.bounds_ w.type_] else []) ++
        (if w.state_ ≠ WidgetState.UNINITIALIZED then
          [Message.State w.handle_ w.state_] else []) ++
        (if w.title_ ≠ "" then [Message.Title w.handle_ w.title_] else []) ++
        (match w.region_ with
          | some region =>
            if region.isEmpty then []
            else [Message.AddRegion w.handle_ region.getBounds.left region.getBounds.top
              region.getBounds.right region.getBounds.bottom]
          | none => []) ++
        (match w.bitmap_ with
          | some bitmap => [Message.CursorSet bitmap.bitmaps bitmap.hotspot]
          | none => [])
      else []) } := by
  have ht := String_length_eq_zero_iff w.title_
  unfold OnGpuProcessLaunched
  by_cases hc : w.connected = true
  · rw [if_pos hc, if_pos hc, DeferredSendingToGpu_eq]
    unfold sendAll
    congr 2
    unfold addRegionMessages cursorMessage
    cases hr : w.region_ with
    | none =>
      cases hb : w.bitmap_ <;> by_cases hl : w.title_ = "" <;> simp [hc, hl, ht]
    | some region =>
      cases he : region.isEmpty <;> cases hb : w.bitmap_ <;>
        by_cases hl : w.title_ = "" <;> simp [hc, hl, ht, he]
  · rw [if_neg hc, if_neg hc, List.append_nil]

/-- C8: `Hide` sets the widget state to HIDE. On a TOOLTIP it hands nothing to
the transport, connected or not, and asks the delegate to close the window;
on any other widget type it makes no delegate call and, with the transport
connected, hands exactly one message, State(handle, HIDE), to the transport
(none when not connected). -/
theorem C8_Hide (w : World) :
    (Hide w).state_ = WidgetState.HIDE ∧
    (Hide w).sent =
      (if w.type_ = WidgetType.TOOLTIP then w.sent
       else if w.connected then w.sent ++ [Message.State w.handle_ WidgetState.HIDE]
       else w.sent) ∧
    (Hide w).delegate_calls =
      (if w.type_ = WidgetType.TOOLTIP then w.delegate_calls ++ [DelegateCall.OnCloseRequest]
       else w.delegate_calls) := by
  simp only [Hide, SendWidgetState, Send, OnCloseRequest]
  by_cases ht : w.type_ = WidgetType.TOOLTIP <;> cases hc : w.connected <;> simp [ht, hc]

/-- The first guard of `SetCustomCursor`. -/
theorem SetCustomCursor_locked (w : World) (type : CustomCursorType) (path : String)
    (hotspot_x hotspot_y : Int) (h : w.allowed_cursor_overriding_ = true) :
    SetCustomCursor w type path hotspot_x hotspot_y false = w := by
  simp [SetCustomCursor, h]

/-- C9: with cursor overriding allowed on the window, `SetCustomCursor` with
`allowed_cursor_overriding = false` returns the window and its collaborators
unchanged, whatever the type, path and hotspot: cursor type, overriding flag,
stored bitmap, platform cursor, messages sent and posted decode tasks are all
as before. -/
theorem C9_SetCustomCursor_rejected (w : World) (type : CustomCursorType) (path : String)
    (hotspot_x hotspot_y : Int) (h : w.allowed_cursor_overriding_ = true) :
    SetCustomCursor w type path hotspot_x hotspot_y false = w := by
  simp [SetCustomCursor, h]

/-- C9 at a window with overriding allowed, for a request of type `kPath`. -/
theorem C9_SetCustomCursor_rejected_witness :
    SetCustomCursor { World.init 1 ⟨0, 0, 10, 10⟩ with allowed_cursor_overriding_ := true }
        CustomCursorType.kPath "cursor.png" 3 4 false =
      { World.init 1 ⟨0, 0, 10, 10⟩ with allowed_cursor_overriding_ := true } :=
  C9_SetCustomCursor_rejected
    { World.init 1 ⟨0, 0, 10, 10⟩ with allowed_cursor_overriding_ := true }
    CustomCursorType.kPath "cursor.png" 3 4 (by decide)

/-! ## Cursor overriding -/

theorem ResetRegion_allowed (w : World) :
    (ResetRegion w).allowed_cursor_overriding_ = w.allowed_cursor_overriding_ := by
  unfold ResetRegion
  split
  · split <;> rfl
  · rfl

theorem InitPlatformWindow_allowed (w w1 : World) (type : PlatformWindowType)
    (parent_window : Nat) (h : InitPlatformWindow w type parent_window = Except.ok w1) :
    w1.allowed_cursor_overriding_ = w.allowed_cursor_overriding_ := by
  unfold InitPlatformWindow at h
  cases type
  case kPopup | kMenu =>
    simp only [bind, Except.bind] at h
    split at h
    · cases h
    · rename_i v hv
      obtain ⟨b, rfl⟩ := ValidateBounds_ok _ _ hv
      split at h <;> (cases h; rfl)
  all_goals
    simp only [bind, Except.bind] at h
    split at h <;> (cases h; rfl)

theorem SetBounds_allowed (w w1 : World) (bounds : Rect)
    (h : SetBounds w bounds = Except.ok w1) :
    w1.allowed_cursor_overriding_ = w.allowed_cursor_overriding_ := by
  unfold SetBounds at h
  simp only [bind, Except.bind] at h
  by_cases ht : w.type_ = WidgetType.TOOLTIP
  · rw [if_pos ht] at h
    cases hv : ValidateBounds { w with bounds_ := bounds } with
    | error e =>
      rw [hv] at h
      cases h
    | ok v =>
      rw [hv] at h
      obtain ⟨b, rfl⟩ := ValidateBounds_ok _ _ hv
      simp only at h
      split at h <;> (cases h; rfl)
  · rw [if_neg ht] at h
    split at h <;> (cases h; rfl)

theorem SendWidgetState_allowed (w : World) :
    (SendWidgetState w).allowed_cursor_overriding_ = w.allowed_cursor_overriding_ := by
  rw [SendWidgetState_eq]
  rfl

theorem ToggleFullscreen_allowed (w w1 : World) (h : ToggleFullscreen w = Except.ok w1) :
    w1.allowed_cursor_overriding_ = w.allowed_cursor_overriding_ := by
  unfold ToggleFullscreen at h
  split at h
  · cases h
  · simp only [bind, Except.bind] at h
    split at h
    · cases h
    · rename_i v hv
      cases h
      rw [SendWidgetState_allowed]
      exact SetBounds_allowed w v _ hv

theorem ToggleFullscreenWithSize_allowed (w w1 : World) (width height : Int)
    (h : ToggleFullscreenWithSize w width height = Except.ok w1) :
    w1.allowed_cursor_overriding_ = w.allowed_cursor_overriding_ := by
  unfold ToggleFullscreenWithSize at h
  split at h
  · exact ToggleFullscreen_allowed w w1 h
  · simp only [bind, Except.bind] at h
    split at h
    · cases h
    · rename_i v hv
      cases h
      rw [SendWidgetState_allowed]
      exact SetBounds_allowed w v _ hv

theorem Maximize_allowed (w w1 : World) (h : Maximize w = Except.ok w1) :
    w1.allowed_cursor_overriding_ = w.allowed_cursor_overriding_ := by
  unfold Maximize at h
  split at h
  · cases h
  · simp only [bind, Except.bind] at h
    split at h
    · cases h
    · rename_i v hv
      cases h
      rw [SendWidgetState_allowed]
      exact SetBounds_allowed w v _ hv

theorem Minimize_allowed (w w1 : World) (h : Minimize w = Except.ok w1) :
    w1.allowed_cursor_overriding_ = w.allowed_cursor_overriding_ := by
  unfold Minimize at h
  simp only [bind, Except.bind] at h
  split at h
  · cases h
  · rename_i v hv
    cases h
    rw [SendWidgetState_allowed]
    exact SetBounds_allowed w v _ hv

theorem SetWindowShape_allowed (w : World) (path : SkPath) :
    (SetWindowShape w path).allowed_cursor_overriding_ = w.allowed_cursor_overriding_ := by
  unfold SetWindowShape
  simp only []
  split
  · exact ResetRegion_allowed w
  · rw [AddRegion_eq]
    exact ResetRegion_allowed w

theorem SetOpacity_allowed (w : World) (opacity : ℚ) :
    (SetOpacity w opacity).allowed_cursor_overriding_ = w.allowed_cursor_overriding_ := by
  unfold SetOpacity
  simp only []
  split
  · split
    · rw [AddRegion_eq]
      rfl
    · rfl
  · split
    · exact ResetRegion_allowed w
    · rfl

theorem SetCursor_allowed (w : World) (cursor : PlatformCursor) :
    (SetCursor w cursor).allowed_cursor_overriding_ = w.allowed_cursor_overriding_ := by
  unfold SetCursor
  simp only []
  split
  · rfl
  · split
    · rfl
    · rw [SetCursorNoArg_eq]
      rfl

theorem ResetCustomCursor_allowed (w : World) :
    (ResetCustomCursor w).allowed_cursor_overriding_ = w.allowed_cursor_overriding_ := by
  unfold ResetCustomCursor
  split
  · rfl
  · split
    · split <;> rfl
    · rfl

theorem SetWindowProperty_allowed (w : World) (name value : String) :
    (SetWindowProperty w name value).allowed_cursor_overriding_ =
      w.allowed_cursor_overriding_ := by
  unfold SetWindowProperty
  simp only []
  split <;> rfl

/-- The flag `allowed_cursor_overriding_`, once true, is still true after
`SetCustomCursor`, whatever its arguments. -/
theorem SetCustomCursor_allowed (w : World) (type : CustomCursorType) (path : String)
    (hotspot_x hotspot_y : Int) (allowed : Bool) (h : w.allowed_cursor_overriding_ = true) :
    (SetCustomCursor w type path hotspot_x hotspot_y allowed).allowed_cursor_overriding_ =
      true := by
  cases allowed
  · rw [SetCustomCursor_locked w type path hotspot_x hotspot_y h]
    exact h
  · unfold SetCustomCursor
    simp only []
    split
    · exact h
    · split
      · exact h
      · split
        · rfl
        · split
          · split <;> rfl
          · rfl

theorem SetCustomCursorFromBitmap_allowed (w : World) (type : CustomCursorType)
    (cursor_image : Option SkBitmap) (hotspot_x hotspot_y : Int) (allowed : Bool)
    (h : w.allowed_cursor_overriding_ = true) :
    (SetCustomCursorFromBitmap w type cursor_image hotspot_x hotspot_y
      allowed).allowed_cursor_overriding_ = true := by
  unfold SetCustomCursorFromBitmap
  split
  · exact SetCustomCursor_allowed w _ _ _ _ _ h
  · simp only []
    split
    · rw [SetCursorNoArg_eq]
      exact h
    · exact h

theorem RunDecodeTask_allowed (w : World) (decoded : Option SkBitmap)
    (h : w.allowed_cursor_overriding_ = true) :
    (RunDecodeTask w decoded).allowed_cursor_overriding_ = true := by
  unfold RunDecodeTask
  split
  · exact h
  · simp only []
    split
    · exact h
    · exact SetCustomCursorFromBitmap_allowed _ _ _ _ _ _ h

/-- One operation that returns keeps `allowed_cursor_overriding_` true. -/
theorem step_allowed (w w1 : World) (op : Op) (h : step w op = Except.ok w1)
    (ha : w.allowed_cursor_overriding_ = true) : w1.allowed_cursor_overriding_ = true := by
  cases op <;> simp only [step, Except.ok.injEq] at h
  case InitPlatformWindow type parent_window =>
    rw [InitPlatformWindow_allowed w w1 type parent_window h]; exact ha
  case SetTitle title =>
    subst h
    unfold SetTitle
    simp only []
    split <;> exact ha
  case SetWindowShape path => subst h; rw [SetWindowShape_allowed]; exact ha
  case SetOpacity opacity => subst h; rw [SetOpacity_allowed]; exact ha
  case SetBounds bounds => rw [SetBounds_allowed w w1 bounds h]; exact ha
  case Show inactive => subst h; unfold Show; rw [SendWidgetState_allowed]; exact ha
  case Hide =>
    subst h
    unfold Hide
    simp only []
    split
    · exact ha
    · rw [SendWidgetState_allowed]; exact ha
  case ToggleFullscreen => rw [ToggleFullscreen_allowed w w1 h]; exact ha
  case ToggleFullscreenWithSize width height =>
    rw [ToggleFullscreenWithSize_allowed w w1 width height h]; exact ha
  case Maximize => rw [Maximize_allowed w w1 h]; exact ha
  case Minimize => rw [Minimize_allowed w w1 h]; exact ha
  case Restore => subst h; unfold Restore; rw [SendWidgetState_allowed]; exact ha
  case SetCursor cursor => subst h; rw [SetCursor_allowed]; exact ha
  case OnGpuProcessLaunched =>
    subst h
    unfold OnGpuProcessLaunched
    split
    · rw [DeferredSendingToGpu_eq]; exact ha
    · exact ha
  case SetWindowProperty name value => subst h; rw [SetWindowProperty_allowed]; exact ha
  case ResetCustomCursor => subst h; rw [ResetCustomCursor_allowed]; exact ha
  case SetResizeEnabled enabled => subst h; exact ha
  case SetCustomCursor type path hotspot_x hotspot_y allowed =>
    subst h; exact SetCustomCursor_allowed w _ _ _ _ _ ha
  case SetCustomCursorFromBitmap type cursor_image hotspot_x hotspot_y allowed =>
    subst h; exact SetCustomCursorFromBitmap_allowed w _ _ _ _ _ ha
  case RunDecodeTask decoded => subst h; exact RunDecodeTask_allowed w _ ha
  case Forward m => subst h; exact ha
  case ChannelConnected => subst h; exact ha
  case ChannelDisconnected => subst h; exact ha
  case PlatformCursorChanged cursor => subst h; exact ha

/-- A run that returns keeps `allowed_cursor_overriding_` true. -/
theorem run_allowed (ops : List Op) (w w1 : World) (h : run w ops = Except.ok w1)
    (ha : w.allowed_cursor_overriding_ = true) : w1.allowed_cursor_overriding_ = true := by
  induction ops generalizing w with
  | nil =>
    simp only [run, Except.ok.injEq] at h
    subst h
    exact ha
  | cons op ops ih =>
    simp only [run] at h
    split at h
    · rename_i v hv
      exact ih v h (step_allowed w v op hv ha)
    · cases h

/-- A run over `ops ++ later` that returns passes through the state reached
after `ops`. -/
theorem run_append (ops later : List Op) (w w2 : World)
    (h : run w (ops ++ later) = Except.ok w2) :
    ∃ w1, run w ops = Except.ok w1 ∧ run w1 later = Except.ok w2 := by
  induction ops generalizing w with
  | nil => exact ⟨w, rfl, h⟩
  | cons op ops ih =>
    simp only [List.cons_append, run] at h ⊢
    split at h
    · rename_i v hv
      exact ih v h
    · cases h

/-- C10: cursor overriding is a one-way transition. In every sequence of
operations on the window (the cursor operations and all others, and the
events of its surroundings), from any starting state: if the flag
`allowed_cursor_overriding_` is true in the state reached after `ops`, it is
true in the state reached after any further operations `later`. -/
theorem C10_cursor_overriding_one_way (w w1 w2 : World) (ops later : List Op)
    (h1 : run w ops = Except.ok w1) (ha : w1.allowed_cursor_overriding_ = true)
    (h2 : run w (ops ++ later) = Except.ok w2) :
    w2.allowed_cursor_overriding_ = true := by
  obtain ⟨v, hv, hlater⟩ := run_append ops later w w2 h2
  rw [h1] at hv
  cases hv
  exact run_allowed later w1 w2 hlater ha

/-- C10 on a run: overriding is switched on by a `kBlank` request; later
requests that try to switch it off, a `SetCursor`, a failed decode and `Hide`
leave it on. -/
theorem C10_cursor_overriding_one_way_witness :
    (run (World.init 1 ⟨0, 0, 10, 10⟩)
        [Op.SetCustomCursor CustomCursorType.kBlank "" 0 0 true] =
      Except.ok blankCursorWindow ∧
     blankCursorWindow.allowed_cursor_overriding_ = true ∧
     run (World.init 1 ⟨0, 0, 10, 10⟩)
        ([Op.SetCustomCursor CustomCursorType.kBlank "" 0 0 true] ++
          [Op.SetCustomCursor CustomCursorType.kPath "cursor.png" 1 1 false,
           Op.SetCursor (some ⟨1, ⟨[⟨7⟩], ⟨0, 0⟩⟩⟩),
           Op.SetCustomCursor CustomCursorType.kNotUse "" 0 0 true,
           Op.SetCustomCursorFromBitmap CustomCursorType.kPath none 0 0 false,
           Op.Hide]) =
      Except.ok restoredCursorWindow) ∧
    restoredCursorWindow.allowed_cursor_overriding_ = true :=
  have h1 : run (World.init 1 ⟨0, 0, 10, 10⟩)
      [Op.SetCustomCursor CustomCursorType.kBlank "" 0 0 true] =
        Except.ok blankCursorWindow := by decide
  have h2 : run (World.init 1 ⟨0, 0, 10, 10⟩)
      ([Op.SetCustomCursor CustomCursorType.kBlank "" 0 0 true] ++
        [Op.SetCustomCursor CustomCursorType.kPath "cursor.png" 1 1 false,
         Op.SetCursor (some ⟨1, ⟨[⟨7⟩], ⟨0, 0⟩⟩⟩),
         Op.SetCustomCursor CustomCursorType.kNotUse "" 0 0 true,
         Op.SetCustomCursorFromBitmap CustomCursorType.kPath none 0 0 false,
         Op.Hide]) =
        Except.ok restoredCursorWindow := by decide
  ⟨⟨h1, by decide, h2⟩,
    C10_cursor_overriding_one_way (World.init 1 ⟨0, 0, 10, 10⟩) blankCursorWindow
      restoredCursorWindow _ _ h1 (by decide) h2⟩

/-! ## Cursor requests -/

/-- C11: for a cursor type other than `kPath`, (a) when the type equals the
current cursor type and the window manager holds no platform cursor,
`SetCustomCursor` returns the window and its collaborators unchanged (so it
hands no message to the transport), whatever the path, hotspot and overriding
argument; (b) consequently a second, identical call right after a first one
changes nothing and sends nothing. -/
theorem C11_SetCustomCursor_redundant (w : World) (type : CustomCursorType) (path : String)
    (hotspot_x hotspot_y : Int) (allowed : Bool) (ht : type ≠ CustomCursorType.kPath) :
    (type = w.cursor_type_ → w.wm_platform_cursor = none →
      SetCustomCursor w type path hotspot_x hotspot_y allowed = w) ∧
    SetCustomCursor (SetCustomCursor w type path hotspot_x hotspot_y allowed)
        type path hotspot_x hotspot_y allowed =
      SetCustomCursor w type path hotspot_x hotspot_y allowed := by
  cases w with
  | mk =>
    rename_i os_webos _ _ _ _ _ _ _ _ _ _ _ _ cursor_type allowed0 _ _ _ _ cursor _ _ _
    constructor
    · intro h1 h2
      simp only at h1 h2
      subst h1 h2
      simp [SetCustomCursor, ht]
    · cases type <;> cases allowed <;> cases allowed0 <;> cases os_webos <;>
        cases cursor_type <;> cases cursor <;>
        first
          | exact absurd rfl ht
          | simp [SetCustomCursor, Send]

/-- C11 at a window whose cursor is already blank. -/
theorem C11_SetCustomCursor_redundant_witness :
    SetCustomCursor blankCursorWindow CustomCursorType.kBlank "" 0 0 true = blankCursorWindow :=
  (C11_SetCustomCursor_redundant blankCursorWindow CustomCursorType.kBlank "" 0 0 true
    (by decide)).1 (by decide) (by decide)

/-- C12, refuted as stated: in a build without `OS_WEBOS` the two branches
that send a cursor without bitmap are not compiled. A `kBlank` request that
passes both guards then sets the cursor type, the platform cursor and the
overriding flag, but hands no message to the transport and keeps the stored
bitmap. -/
theorem C12_SetCustomCursor_without_webos :
    SetCustomCursor
        { World.init 1 ⟨0, 0, 10, 10⟩ with os_webos := false, bitmap_ := some ⟨[⟨7⟩], ⟨1, 1⟩⟩ }
        CustomCursorType.kBlank "" 0 0 true =
      { World.init 1 ⟨0, 0, 10, 10⟩ with
        os_webos := false
        bitmap_ := some ⟨[⟨7⟩], ⟨1, 1⟩⟩
        cursor_type_ := CustomCursorType.kBlank
        allowed_cursor_overriding_ := true } ∧
    (SetCustomCursor
        { World.init 1 ⟨0, 0, 10, 10⟩ with os_webos := false, bitmap_ := some ⟨[⟨7⟩], ⟨1, 1⟩⟩ }
        CustomCursorType.kBlank "" 0 0 true).sent = [] ∧
    (SetCustomCursor
        { World.init 1 ⟨0, 0, 10, 10⟩ with os_webos := false, bitmap_ := some ⟨[⟨7⟩], ⟨1, 1⟩⟩ }
        CustomCursorType.kBlank "" 0 0 true).bitmap_ ≠ none := by
  decide

/-- C12 as amended: in a build with `OS_WEBOS`, a `SetCustomCursor` request of
type `kBlank` or `kNotUse` that is rejected neither by the first guard
(overriding allowed on the window and not requested) nor by the second (same
type as the current one and no platform cursor set) changes exactly this: the
cursor type becomes the requested type, the platform cursor is cleared, the
overriding flag becomes the requested one, the stored bitmap is cleared, and
one message is handed to the transport, `CursorSet` with no bitmap and hotspot
(254,254) for `kBlank`, (255,255) for `kNotUse`. -/
theorem C12_SetCustomCursor_clear (w : World) (type : CustomCursorType) (path : String)
    (hotspot_x hotspot_y : Int) (allowed : Bool)
    (hwebos : w.os_webos = true)
    (htype : type = CustomCursorType.kBlank ∨ type = CustomCursorType.kNotUse)
    (hrule1 : ¬ (w.allowed_cursor_overriding_ = true ∧ allowed = false))
    (hrule2 : ¬ (type = w.cursor_type_ ∧ w.wm_platform_cursor = none)) :
    SetCustomCursor w type path hotspot_x hotspot_y allowed =
      { w with
        cursor_type_ := type
        wm_platform_cursor := none
        allowed_cursor_overriding_ := allowed
        bitmap_ := none
        sent := w.sent ++
          [Message.CursorSet []
            (if type = CustomCursorType.kBlank then ⟨254, 254⟩ else ⟨255, 255⟩)] } := by
  cases w with
  | mk =>
    simp only at hwebos hrule1 hrule2
    subst hwebos
    have h1 : ∀ (a b : Bool), ¬ (a = true ∧ b = false) → (a && !b) = false := by decide
    rcases htype with rfl | rfl <;>
      simp [SetCustomCursor, Send, h1 _ _ hrule1, lsm_cursor_hide_location,
        lsm_cursor_restore_location] <;>
      intro h2 h3 <;> exact absurd ⟨h2, h3⟩ hrule2

/-- C12 as amended, at a freshly constructed window asked to hide its
cursor. -/
theorem C12_SetCustomCursor_clear_witness :
    SetCustomCursor (World.init 1 ⟨0, 0, 10, 10⟩) CustomCursorType.kBlank "" 0 0 true =
      blankCursorWindow :=
  (C12_SetCustomCursor_clear (World.init 1 ⟨0, 0, 10, 10⟩) CustomCursorType.kBlank "" 0 0 true
    (by decide) (by decide) (by decide) (by decide)).trans (by decide)

/-! ## Region bookkeeping -/

theorem ResetRegion_eq (w : World) :
    ResetRegion w = { sendAll w (resetRegionMessages w) with region_ := none } := by
  unfold ResetRegion resetRegionMessages
  cases w with
  | mk =>
    rename_i region _ _ _ _ _ _ _ _ _ _ _ _ _ _
    cases region with
    | none => simp [sendAll]
    | some r => simp only []; split <;> simp [sendAll, Send]

theorem ResetRegion_region (w : World) : (ResetRegion w).region_ = none := by
  rw [ResetRegion_eq]

theorem ResetRegion_transparent (w : World) :
    (ResetRegion w).transparent_ = w.transparent_ := by
  rw [ResetRegion_eq]
  rfl

/-- Making a non-transparent window transparent and opaque again leaves it as
`ResetRegion` alone leaves it: the region is gone and nothing is added back. -/
theorem SetOpacity_toggle (w : World) (opacity : ℚ) (ho : opacity ≠ 1)
    (ht : w.transparent_ = false) :
    SetOpacity (SetOpacity w opacity) 1 = ResetRegion w := by
  have h1 : SetOpacity w opacity = { ResetRegion w with transparent_ := true } := by
    unfold SetOpacity
    simp [ho, ht]
  rw [h1]
  unfold SetOpacity
  simp only [if_true]
  rw [AddRegion_eq]
  have h2 : addRegionMessages { ResetRegion w with transparent_ := true } = [] := by
    unfold addRegionMessages
    simp [ResetRegion_region]
  rw [h2, sendAll_nil]
  have h3 := ResetRegion_transparent w
  rw [ht] at h3
  generalize ResetRegion w = v at h3 ⊢
  cases v
  simp only at h3
  subst h3
  rfl

/-- C13, the code at a failing input: a connected, non-transparent window
holds the region of the rectangle (0,0,10,10), whose bounding box it sent with
`AddRegion` when `SetWindowShape` stored it. `SetOpacity(0)` sends
`SubRegion(0,0,10,10)` and deletes the region; `SetOpacity(1)` then calls
`AddRegion` with no region left, so it sends nothing: afterwards the window
holds no region and no second `AddRegion` was sent. -/
theorem C13_SetOpacity_toggle_loses_region :
    SetWindowShape { World.init 1 ⟨0, 0, 100, 100⟩ with connected := true }
        ⟨[⟨0, 0, 10, 10⟩]⟩ = shapedWindow ∧
    SetOpacity shapedWindow 0 =
      { shapedWindow with
        transparent_ := true
        region_ := none
        sent := [Message.AddRegion 1 0 0 10 10, Message.SubRegion 1 0 0 10 10] } ∧
    SetOpacity (SetOpacity shapedWindow 0) 1 =
      { shapedWindow with
        region_ := none
        sent := [Message.AddRegion 1 0 0 10 10, Message.SubRegion 1 0 0 10 10] } ∧
    (SetOpacity (SetOpacity shapedWindow 0) 1).region_ ≠ shapedWindow.region_ := by
  decide

/-- Every rectangle of a path clipped to the rectangle (0, 0, width, height)
lies inside that rectangle. -/
theorem setPath_clipped (path : SkPath) (width height : Int) (r : SkIRect)
    (h : r ∈ (SkRegion.setPath path (SkRegion.setRect ⟨0, 0, width, height⟩)).rects) :
    0 ≤ r.left ∧ 0 ≤ r.top ∧ r.right ≤ width ∧ r.bottom ≤ height := by
  unfold SkRegion.setPath SkRegion.setRect at h
  simp only [List.mem_filter, List.mem_flatMap, List.mem_map] at h
  obtain ⟨⟨p, _, c, hc, rfl⟩, _⟩ := h
  split at hc
  · simp at hc
  · simp only [List.mem_singleton] at hc
    subst hc
    simp [SkIRect.intersect]

/-- C14: `SetWindowShape(path)` changes the stored region and the messages
handed to the transport, nothing else. It first clears the old region,
sending `SubRegion` with the old bounding box iff the transport is connected
and an old, non-empty region exists. On a transparent window no region is
stored afterwards and no `AddRegion` is sent. Otherwise the stored region is
the path clipped to the rectangle (0, 0, width, height) of the window, every
rectangle of which lies inside that rectangle, and one `AddRegion` carrying
the bounding box (left, top, right, bottom) of the stored region follows iff
the transport is connected and the stored region is non-empty. -/
theorem C14_SetWindowShape (w : World) (path : SkPath) :
    SetWindowShape w path =
      { w with
        region_ :=
          if w.transparent_ then none
          else some (SkRegion.setPath path
            (SkRegion.setRect ⟨0, 0, w.bounds_.width, w.bounds_.height⟩))
        sent := w.sent ++
          (match w.region_ with
            | some old =>
              if w.connected ∧ ¬ old.isEmpty then
                [Message.SubRegion w.handle_ old.getBounds.left old.getBounds.top
                  old.getBounds.right old.getBounds.bottom]
              else []
            | none => []) ++
          (if w.transparent_ then []
            else if w.connected ∧ ¬ (SkRegion.setPath path
                (SkRegion.setRect ⟨0, 0, w.bounds_.width, w.bounds_.height⟩)).isEmpty then
              [Message.AddRegion w.handle_
                (SkRegion.setPath path (SkRegion.setRect
                  ⟨0, 0, w.bounds_.width, w.bounds_.height⟩)).getBounds.left
                (SkRegion.setPath path (SkRegion.setRect
                  ⟨0, 0, w.bounds_.width, w.bounds_.height⟩)).getBounds.top
                (SkRegion.setPath path (SkRegion.setRect
                  ⟨0, 0, w.bounds_.width, w.bounds_.height⟩)).getBounds.right
                (SkRegion.setPath path (SkRegion.setRect
                  ⟨0, 0, w.bounds_.width, w.bounds_.height⟩)).getBounds.bottom]
            else []) } ∧
    ∀ r ∈ (SkRegion.setPath path
        (SkRegion.setRect ⟨0, 0, w.bounds_.width, w.bounds_.height⟩)).rects,
      0 ≤ r.left ∧ 0 ≤ r.top ∧ r.right ≤ w.bounds_.width ∧ r.bottom ≤ w.bounds_.height := by
  refine ⟨?_, fun r hr => setPath_clipped path _ _ r hr⟩
  cases w with
  | mk =>
    rename_i transparent bounds _ _ _ _ region _ _ _ _ _ _ connected _ _ _ _ _ _ _
    simp only [SetWindowShape, ResetRegion_eq, AddRegion_eq, sendAll]
    generalize SkRegion.setPath path
      (SkRegion.setRect ⟨0, 0, bounds.width, bounds.height⟩) = clipped
    cases transparent <;> cases region <;> cases connected <;>
      simp [resetRegionMessages, addRegionMessages]

/-- C15: `SetCursor(cursor)` does not change the cursor if it was overridden
or if the same cursor is already used. When `allowed_cursor_overriding_` is
true or the window manager's platform cursor equals the requested cursor (the
same pointer), the window and its collaborators are unchanged (stored bitmap
and platform cursor in particular) and no message is sent. Otherwise the
platform cursor becomes the requested cursor, the stored bitmap becomes the
bitmap cursor behind it, and one `CursorSet` message, carrying that bitmap
cursor, is handed to the transport iff it is connected; nothing else
changes. -/
theorem C15_SetCursor (w : World) (cursor : PlatformCursor) :
    SetCursor w cursor =
      if w.allowed_cursor_overriding_ = true ∨ pointer_eq w.wm_platform_cursor cursor = true
      then w
      else
        { w with
          bitmap_ := GetBitmapCursor cursor
          wm_platform_cursor := cursor
          sent := w.sent ++
            (if w.connected then
              [match GetBitmapCursor cursor with
                | some bitmap => Message.CursorSet bitmap.bitmaps bitmap.hotspot
                | none => Message.CursorSet [] ⟨0, 0⟩]
            else []) } := by
  cases w with
  | mk =>
    rename_i allowed0 connected _ _ _ current _ _ _
    simp only [SetCursor, SetCursorNoArg_eq, sendAll, cursorMessage]
    cases hsame : pointer_eq current cursor <;> cases allowed0 <;> cases connected <;>
      simp

/-- The comparison in `SetCursor` is one of pointers: with the platform cursor
at address 1, a request for another cursor object at address 2 with the same
bitmaps and hotspot is not taken for the cursor in use; it is stored and sent.
A request for the pointer in use changes nothing. -/
theorem SetCursor_compares_pointers :
    SetCursor
        { World.init 1 ⟨0, 0, 10, 10⟩ with
          connected := true
          wm_platform_cursor := some ⟨1, ⟨[⟨7⟩], ⟨0, 0⟩⟩⟩ }
        (some ⟨2, ⟨[⟨7⟩], ⟨0, 0⟩⟩⟩) =
      { World.init 1 ⟨0, 0, 10, 10⟩ with
        connected := true
        bitmap_ := some ⟨[⟨7⟩], ⟨0, 0⟩⟩
        wm_platform_cursor := some ⟨2, ⟨[⟨7⟩], ⟨0, 0⟩⟩⟩
        sent := [Message.CursorSet [⟨7⟩] ⟨0, 0⟩] } ∧
    SetCursor
        { World.init 1 ⟨0, 0, 10, 10⟩ with
          connected := true
          wm_platform_cursor := some ⟨1, ⟨[⟨7⟩], ⟨0, 0⟩⟩⟩ }
        (some ⟨1, ⟨[⟨7⟩], ⟨0, 0⟩⟩⟩) =
      { World.init 1 ⟨0, 0, 10, 10⟩ with
        connected := true
        wm_platform_cursor := some ⟨1, ⟨[⟨7⟩], ⟨0, 0⟩⟩⟩ } := by
  decide

end OzoneWaylandWindow

namespace InputMethodNevaObserver

/-! ## Restriction of the surrounding text -/

theorem substr_some (s t : List Nat) (pos n : Nat) (h : substr s pos n = some t) :
    pos ≤ s.length ∧ t = (s.drop pos).take n := by
  unfold substr at h
  split at h
  · cases h
  · cases h
    exact ⟨by omega, rfl⟩

theorem substr_of_le (s : List Nat) (pos n : Nat) (h : pos ≤ s.length) :
    substr s pos n = some ((s.drop pos).take n) := by
  unfold substr
  rw [if_neg (by omega)]

theorem sub_uint32_lt (a b : Nat) : sub_uint32 a b < 2 ^ 32 :=
  Nat.mod_lt _ (by norm_num)

theorem sub_uint32_of_le (a b : Nat) (hb : b ≤ a) (ha : a ≤ UINT32_MAX) :
    sub_uint32 a b = a - b := by
  unfold sub_uint32
  unfold UINT32_MAX at ha
  omega

/-- What `restrictSurroundingText` passes on is at most `kSurroundingTextMax`
long, and so are both positions. -/
theorem restrictSurroundingText_bounds (text out : List Nat) (a c cursor anchor : Nat)
    (ha : a < 2 ^ 32) (hc : c < 2 ^ 32)
    (h : restrictSurroundingText text a c = Outcome.SetSurroundingText out cursor anchor) :
    out.length ≤ 4000 ∧ cursor ≤ 4000 ∧ anchor ≤ 4000 := by
  unfold restrictSurroundingText at h
  simp only [kSurroundingTextMax, SIZE_T_RANGE] at h
  split at h
  · split at h
    · split at h
      · cases h
      · rename_i t ht
        obtain ⟨_, rfl⟩ := substr_some _ _ _ _ ht
        simp only [Outcome.SetSurroundingText.injEq] at h
        obtain ⟨rfl, rfl, rfl⟩ := h
        refine ⟨?_, by omega, ?_⟩
        · simp only [List.length_take, List.length_drop]
          omega
        · split <;> omega
    · split at h
      · cases h
      · rename_i t ht
        obtain ⟨_, rfl⟩ := substr_some _ _ _ _ ht
        simp only [Outcome.SetSurroundingText.injEq] at h
        obtain ⟨rfl, rfl, rfl⟩ := h
        refine ⟨?_, ?_, by omega⟩
        · simp only [List.length_take, List.length_drop]
          omega
        · split <;> omega
  · rename_i hca
    have hpos : c - (if a ≤ 4000 then 0 else a - 4000) ≤ 4000 := by
      split <;> omega
    generalize (if a ≤ 4000 then 0 else a - 4000) = pos at h hpos
    split at h
    · split at h
      · cases h
      · rename_i t ht
        obtain ⟨_, rfl⟩ := substr_some _ _ _ _ ht
        simp only [Outcome.SetSurroundingText.injEq] at h
        obtain ⟨rfl, rfl, rfl⟩ := h
        refine ⟨?_, hpos, hpos⟩
        simp only [List.length_take, List.length_drop]
        omega
    · simp only [Outcome.SetSurroundingText.injEq] at h
      obtain ⟨rfl, rfl, rfl⟩ := h
      exact ⟨by simp, hpos, hpos⟩

/-- C16: the surrounding text is restricted to 4000 characters. Whenever
`OnCaretBoundsChanged` reaches `SetSurroundingText`, whatever the text range,
the surrounding text, the selection range and the composition range of the
client, the text passed has length at most 4000 and the cursor and anchor
positions passed are each at most 4000. -/
theorem C16_surrounding_text_restricted (client : TextInputClient) (text : List Nat)
    (cursor_position anchor_position : Nat)
    (h : OnCaretBoundsChanged client =
      Outcome.SetSurroundingText text cursor_position anchor_position) :
    text.length ≤ 4000 ∧ cursor_position ≤ 4000 ∧ anchor_position ≤ 4000 := by
  unfold OnCaretBoundsChanged at h
  split at h
  · cases h
  · split at h
    · cases h
    · split at h
      · cases h
      · split at h
        · cases h
        · exact restrictSurroundingText_bounds _ _ _ _ _ _ (sub_uint32_lt _ _)
            (sub_uint32_lt _ _) h

/-- C16 on a client with the text "hello" at range (0,5) and the selection
(1,3): the call reaches `SetSurroundingText` with the text "ello", cursor 2
and anchor 0. -/
theorem C16_surrounding_text_restricted_witness :
    OnCaretBoundsChanged (clientOf ⟨0, 5⟩ [104, 101, 108, 108, 111] ⟨1, 3⟩ none) =
      Outcome.SetSurroundingText [101, 108, 108, 111] 2 0 ∧
    ([101, 108, 108, 111] : List Nat).length ≤ 4000 ∧ 2 ≤ 4000 ∧ 0 ≤ 4000 :=
  have h : OnCaretBoundsChanged (clientOf ⟨0, 5⟩ [104, 101, 108, 108, 111] ⟨1, 3⟩ none) =
      Outcome.SetSurroundingText [101, 108, 108, 111] 2 0 := by decide
  ⟨h, C16_surrounding_text_restricted _ _ _ _ h⟩

/-! ## Composition -/

/-- With cursor and anchor at the same position `d`, `SetSurroundingText` is
reached with both positions `min d 4000` and with the text from `d - 4000`
(from 0 when `d ≤ 4000`) on, up to 4000 bytes. -/
theorem restrictSurroundingText_collapsed (text : List Nat) (d : Nat) :
    restrictSurroundingText text d d =
      Outcome.SetSurroundingText ((text.drop (d - 4000)).take 4000) (min d 4000)
        (min d 4000) := by
  unfold restrictSurroundingText
  simp only [kSurroundingTextMax, ne_eq, not_true_eq_false, if_false]
  have hpos : (if d ≤ 4000 then 0 else d - 4000) = d - 4000 := by
    split <;> omega
  rw [hpos]
  have hmin : d - (d - 4000) = min d 4000 := by omega
  rw [hmin]
  split
  · rw [substr_of_le _ _ _ (by omega)]
  · rw [List.drop_eq_nil_of_le (by omega)]
    rfl

theorem Range.IsValid_of_bounds (sel comp : Range) (hv : sel.IsValid = true)
    (hs : sel.InBounds) (hmin : comp.GetMin ≤ sel.GetMin) :
    comp.IsValid = true := by
  unfold Range.IsValid Range.InvalidRange at hv ⊢
  unfold Range.InBounds at hs
  unfold Range.GetMin at hmin
  simp only [bne_iff_ne, ne_eq] at hv ⊢
  intro hc
  apply hv
  subst hc
  simp only [lt_self_iff_false, if_false] at hmin
  cases sel with
  | mk s e =>
    simp only at hs hmin
    simp only [Range.mk.injEq]
    split at hmin <;> omega

/-- A valid selection bounded by the composition range is replaced by the
collapsed range at the start of the composition range. -/
theorem surround_range_of_bounded (client : TextInputClient) (sel comp : Range)
    (hc : client.GetCompositionTextRange = some comp)
    (hv : sel.IsValid = true) (hs : sel.InBounds)
    (hmin : comp.GetMin ≤ sel.GetMin) (hmax : sel.GetMax ≤ comp.GetMax) :
    surround_range client sel = ⟨comp.GetMin, comp.GetMin⟩ := by
  have hcv := Range.IsValid_of_bounds sel comp hv hs hmin
  have hle : sel.GetMin ≤ sel.GetMax := by
    unfold Range.GetMin Range.GetMax
    split <;> split <;> omega
  unfold surround_range
  rw [hc]
  simp only [Range.IsBoundedBy, hv, hcv, Bool.and_self, Bool.true_and, ge_iff_le, hmin, hmax,
    decide_True, if_true, Range.set_start, Range.set_end]
  rw [min_eq_right hmin, min_eq_right (le_trans hmin hle)]

/-- Without a composition range, or with one that does not bound the
selection, the selection range is used as it is. -/
theorem surround_range_of_not_bounded (client : TextInputClient) (sel : Range)
    (h : client.GetCompositionTextRange = none ∨
      ∃ comp, client.GetCompositionTextRange = some comp ∧
        ¬ (comp.GetMin ≤ sel.GetMin ∧ sel.GetMax ≤ comp.GetMax)) :
    surround_range client sel = sel := by
  unfold surround_range
  rcases h with h | ⟨comp, h, hn⟩
  · rw [h]
  · rw [h]
    have hb : sel.IsBoundedBy comp = false := by
      unfold Range.IsBoundedBy
      by_cases h1 : comp.GetMin ≤ sel.GetMin
      · have h2 : ¬ sel.GetMax ≤ comp.GetMax := fun h2 => hn ⟨h1, h2⟩
        simp [h2]
      · simp [h1]
    simp [hb]

/-- The call with the client's answers in place: past the early returns,
`OnCaretBoundsChanged` is `restrictSurroundingText` at the positions of
`surround_range` relative to the start of the text range. -/
theorem OnCaretBoundsChanged_eq (client : TextInputClient) (text_range sel : Range)
    (surrounding_text : List Nat)
    (h1 : client.GetTextRange = some text_range)
    (h2 : client.GetTextFromRange text_range = some surrounding_text)
    (h3 : client.GetEditableSelectionRange = some sel)
    (hv : sel.IsValid = true) :
    OnCaretBoundsChanged client =
      restrictSurroundingText (UTF16ToUTF8 surrounding_text)
        (sub_uint32 (surround_range client sel).start text_range.start)
        (sub_uint32 (surround_range client sel).end_ text_range.start) := by
  unfold OnCaretBoundsChanged
  simp only [h1, h2, h3, hv, Bool.not_true, Bool.false_eq_true, if_false]

/-- The composition range and the positions passed, with the difference the
code computes: for a client that answers with a text range, a text and a valid
selection range, (a) a composition range that bounds the selection makes the
range used the collapsed range at the composition start, `SetSurroundingText`
is reached, and both positions passed are min(d, 4000), where d is the
`uint32_t` difference composition.min - text_range.start, which wraps when
the composition starts before the text range; (b) without a composition range,
or with one that does not bound the selection, the selection range is used
unchanged. -/
theorem composition_excluded_wrapping (client : TextInputClient) (text_range sel : Range)
    (surrounding_text : List Nat)
    (h1 : client.GetTextRange = some text_range)
    (h2 : client.GetTextFromRange text_range = some surrounding_text)
    (h3 : client.GetEditableSelectionRange = some sel)
    (hv : sel.IsValid = true) (hs : sel.InBounds) :
    (∀ comp, client.GetCompositionTextRange = some comp →
      comp.GetMin ≤ sel.GetMin → sel.GetMax ≤ comp.GetMax →
        surround_range client sel = ⟨comp.GetMin, comp.GetMin⟩ ∧
        (∃ text position,
          OnCaretBoundsChanged client = Outcome.SetSurroundingText text position position ∧
          position = min (sub_uint32 comp.GetMin text_range.start) 4000 ∧
          (sub_uint32 comp.GetMin text_range.start ≤ 4000 →
            position = sub_uint32 comp.GetMin text_range.start)) ∧
        (text_range.start ≤ comp.GetMin → comp.GetMin ≤ UINT32_MAX →
          sub_uint32 comp.GetMin text_range.start = comp.GetMin - text_range.start)) ∧
    ((client.GetCompositionTextRange = none ∨
      ∃ comp, client.GetCompositionTextRange = some comp ∧
        ¬ (comp.GetMin ≤ sel.GetMin ∧ sel.GetMax ≤ comp.GetMax)) →
      surround_range client sel = sel ∧
      OnCaretBoundsChanged client =
        restrictSurroundingText (UTF16ToUTF8 surrounding_text)
          (sub_uint32 sel.start text_range.start) (sub_uint32 sel.end_ text_range.start)) := by
  constructor
  · intro comp hc hmin hmax
    have hsr := surround_range_of_bounded client sel comp hc hv hs hmin hmax
    refine ⟨hsr, ?_, fun hle hb => sub_uint32_of_le _ _ hle hb⟩
    refine ⟨((UTF16ToUTF8 surrounding_text).drop
      (sub_uint32 comp.GetMin text_range.start - 4000)).take 4000, _, ?_, rfl,
      fun hd => min_eq_left hd⟩
    rw [OnCaretBoundsChanged_eq client text_range sel surrounding_text h1 h2 h3 hv, hsr]
    exact restrictSurroundingText_collapsed _ _
  · intro h
    have hsr := surround_range_of_not_bounded client sel h
    refine ⟨hsr, ?_⟩
    rw [OnCaretBoundsChanged_eq client text_range sel surrounding_text h1 h2 h3 hv, hsr]

/-- C17, refuted as stated: text range (10,20), text of 10 bytes, valid
selection (12,15) and composition range (5,18), which bounds the selection and
starts before the text range. The range used is the collapsed range (5,5), and
the positions passed are equal, but both are 4000, while composition.min -
text_range.start is 5 - 10, which is at most 4000 and is not 4000: the
`uint32_t` subtraction wraps to 4294967291. -/
theorem C17_composition_before_text_range :
    (Range.mk 12 15).IsValid = true ∧
    ((Range.mk 5 18).GetMin ≤ (Range.mk 12 15).GetMin ∧
      (Range.mk 12 15).GetMax ≤ (Range.mk 5 18).GetMax) ∧
    surround_range
        (clientOf ⟨10, 20⟩ [97, 98, 99, 100, 101, 102, 103, 104, 105, 106] ⟨12, 15⟩
          (some ⟨5, 18⟩)) ⟨12, 15⟩ = ⟨5, 5⟩ ∧
    OnCaretBoundsChanged
        (clientOf ⟨10, 20⟩ [97, 98, 99, 100, 101, 102, 103, 104, 105, 106] ⟨12, 15⟩
          (some ⟨5, 18⟩)) =
      Outcome.SetSurroundingText [] 4000 4000 ∧
    (((Range.mk 5 18).GetMin : Int) - ((Range.mk 10 20).start : Int) ≤ 4000) ∧
    ((4000 : Int) ≠ ((Range.mk 5 18).GetMin : Int) - ((Range.mk 10 20).start : Int)) := by
  decide

/-- C17 as amended: in the case of composition the composition range is
excluded from the selection range. For a client that answers with a text
range, a text and a valid selection range: (a) when it has a composition range
that bounds the selection (composition.min <= selection.min and selection.max
<= composition.max), the range used is the collapsed range at the composition
start, `SetSurroundingText` is reached, the cursor and anchor positions passed
are equal and, when the composition range starts at or after the start of the
text range and composition.min - text_range.start <= 4000, both equal
composition.min - text_range.start; (b) when it has no composition range or
one that does not bound the selection, the selection range is used
unchanged. -/
theorem C17_composition_excluded (client : TextInputClient) (text_range sel : Range)
    (surrounding_text : List Nat)
    (h1 : client.GetTextRange = some text_range)
    (h2 : client.GetTextFromRange text_range = some surrounding_text)
    (h3 : client.GetEditableSelectionRange = some sel)
    (hv : sel.IsValid = true) (hs : sel.InBounds) :
    (∀ comp, client.GetCompositionTextRange = some comp →
      comp.GetMin ≤ sel.GetMin → sel.GetMax ≤ comp.GetMax →
        surround_range client sel = ⟨comp.GetMin, comp.GetMin⟩ ∧
        ∃ text position,
          OnCaretBoundsChanged client = Outcome.SetSurroundingText text position position ∧
          (text_range.start ≤ comp.GetMin → comp.GetMin - text_range.start ≤ 4000 →
            position = comp.GetMin - text_range.start)) ∧
    ((client.GetCompositionTextRange = none ∨
      ∃ comp, client.GetCompositionTextRange = some comp ∧
        ¬ (comp.GetMin ≤ sel.GetMin ∧ sel.GetMax ≤ comp.GetMax)) →
      surround_range client sel = sel ∧
      OnCaretBoundsChanged client =
        restrictSurroundingText (UTF16ToUTF8 surrounding_text)
          (sub_uint32 sel.start text_range.start) (sub_uint32 sel.end_ text_range.start)) := by
  have hw := composition_excluded_wrapping client text_range sel surrounding_text h1 h2 h3 hv hs
  refine ⟨?_, hw.2⟩
  intro comp hc hmin hmax
  obtain ⟨hsr, ⟨text, position, hcall, _, hpos⟩, hplain⟩ := hw.1 comp hc hmin hmax
  refine ⟨hsr, text, position, hcall, ?_⟩
  intro hstart hle
  have hbound : comp.GetMin ≤ UINT32_MAX := by
    have hsb : sel.start ≤ UINT32_MAX ∧ sel.end_ ≤ UINT32_MAX := hs
    have hsmin : sel.GetMin ≤ sel.start := by
      unfold Range.GetMin
      split <;> omega
    omega
  have hd := hplain hstart hbound
  rw [← hd]
  exact hpos (by omega)

/-- C17 as amended, on a client with the text "hello world" at range (0,11),
the selection (6,9) and the composition range (4,11), which bounds it: the
range used is (4,4) and both positions passed are 4, the start of the
composition. -/
theorem C17_composition_excluded_witness :
    surround_range
        (clientOf ⟨0, 11⟩ [104, 101, 108, 108, 111, 32, 119, 111, 114, 108, 100] ⟨6, 9⟩
          (some ⟨4, 11⟩)) ⟨6, 9⟩ = ⟨4, 4⟩ ∧
    OnCaretBoundsChanged
        (clientOf ⟨0, 11⟩ [104, 101, 108, 108, 111, 32, 119, 111, 114, 108, 100] ⟨6, 9⟩
          (some ⟨4, 11⟩)) =
      Outcome.SetSurroundingText [104, 101, 108, 108, 111, 32, 119, 111, 114, 108, 100] 4 4 :=
  have h := (C17_composition_excluded
    (clientOf ⟨0, 11⟩ [104, 101, 108, 108, 111, 32, 119, 111, 114, 108, 100] ⟨6, 9⟩
      (some ⟨4, 11⟩)) ⟨0, 11⟩ ⟨6, 9⟩ [104, 101, 108, 108, 111, 32, 119, 111, 114, 108, 100]
    rfl rfl rfl (by decide) (by decide)).1 ⟨4, 11⟩ rfl (by decide) (by decide)
  ⟨h.1, by decide⟩

/-! ## Relative positions -/

theorem UTF16ToUTF8_ascii (s : List Nat) (h : ∀ u ∈ s, u < 128) : UTF16ToUTF8 s = s := by
  unfold UTF16ToUTF8
  induction s with
  | nil => rfl
  | cons u tail ih =>
    have hu : u < 128 := h u (List.mem_cons_self _ _)
    have ht : ∀ v ∈ tail, v < 128 := fun v hv => h v (List.mem_cons_of_mem _ hv)
    unfold UTF16ToUTF8.go
    rw [if_neg (by omega), if_neg (by omega), ih ht]
    unfold utf8_bytes
    rw [if_pos (by omega)]
    rfl

/-- Cursor below the anchor, inside the text: the text passed starts at the
cursor, the cursor becomes 0 and the anchor the length of the selection,
4000 at most. -/
theorem restrictSurroundingText_cursor_left (text : List Nat) (a c : Nat)
    (hlt : c < a) (hc : c ≤ text.length) (ha : a < 2 ^ 32) :
    restrictSurroundingText text a c =
      Outcome.SetSurroundingText ((text.drop c).take 4000) 0 (min (a - c) 4000) := by
  unfold restrictSurroundingText
  simp only [kSurroundingTextMax, SIZE_T_RANGE]
  rw [if_pos (by omega), if_pos hlt, substr_of_le _ _ _ hc]
  simp only [Outcome.SetSurroundingText.injEq, true_and]
  split <;> omega

/-- Cursor above the anchor, inside the text: the text passed starts at the
anchor, or 4000 before the cursor if that is further right; the anchor becomes
0 and the cursor the length of the selection, 4000 at most. -/
theorem restrictSurroundingText_cursor_right (text : List Nat) (a c : Nat)
    (hlt : a < c) (hc : c ≤ text.length) (hc32 : c < 2 ^ 32) :
    restrictSurroundingText text a c =
      Outcome.SetSurroundingText ((text.drop (max a (c - 4000))).take 4000)
        (min (c - a) 4000) 0 := by
  unfold restrictSurroundingText
  simp only [kSurroundingTextMax, SIZE_T_RANGE]
  rw [if_pos (by omega), if_neg (by omega)]
  have hanchor : (if c - a > 4000 then
      (c + (2 ^ 64 - 1) * 4000 % 2 ^ 64) % 2 ^ 64 else a) = max a (c - 4000) := by
    split <;> omega
  rw [hanchor, substr_of_le _ _ _ (by omega)]
  simp only [Outcome.SetSurroundingText.injEq, true_and, and_true]
  omega

/-- Positions inside the text give positions inside the text passed, and
`substr` does not throw. -/
theorem restrictSurroundingText_inside (text : List Nat) (a c : Nat)
    (ha : a ≤ text.length) (hc : c ≤ text.length) (ha32 : a < 2 ^ 32) (hc32 : c < 2 ^ 32) :
    ∃ out cursor anchor,
      restrictSurroundingText text a c = Outcome.SetSurroundingText out cursor anchor ∧
      cursor ≤ out.length ∧ anchor ≤ out.length := by
  rcases Nat.lt_trichotomy c a with h | h | h
  · refine ⟨_, _, _, restrictSurroundingText_cursor_left text a c h hc ha32, ?_, ?_⟩ <;>
      simp only [List.length_take, List.length_drop] <;> omega
  · subst h
    refine ⟨_, _, _, restrictSurroundingText_collapsed text c, ?_, ?_⟩ <;>
      simp only [List.length_take, List.length_drop] <;> omega
  · refine ⟨_, _, _, restrictSurroundingText_cursor_right text a c h hc hc32, ?_, ?_⟩ <;>
      simp only [List.length_take, List.length_drop] <;> omega

theorem Range.GetMin_le_GetMax (r : Range) : r.GetMin ≤ r.GetMax := by
  unfold Range.GetMin Range.GetMax
  split <;> split <;> omega

/-- The range used is the selection itself, or the collapsed range at the
start of a composition range that bounds the selection. -/
theorem surround_range_cases (client : TextInputClient) (sel : Range) :
    surround_range client sel = sel ∨
    ∃ comp, client.GetCompositionTextRange = some comp ∧ sel.IsBoundedBy comp = true ∧
      comp.GetMin ≤ sel.GetMin ∧ surround_range client sel = ⟨comp.GetMin, comp.GetMin⟩ := by
  unfold surround_range
  cases hc : client.GetCompositionTextRange with
  | none => exact Or.inl rfl
  | some comp =>
    cases hb : sel.IsBoundedBy comp with
    | false => exact Or.inl (by simp [hb])
    | true =>
      right
      have hb2 := hb
      unfold Range.IsBoundedBy at hb2
      simp only [Bool.and_eq_true, decide_eq_true_eq, ge_iff_le] at hb2
      obtain ⟨⟨⟨_, _⟩, hmin⟩, _⟩ := hb2
      refine ⟨comp, rfl, hb, hmin, ?_⟩
      simp only [hb, if_true, Range.set_start, Range.set_end]
      rw [min_eq_right hmin, min_eq_right (le_trans hmin (Range.GetMin_le_GetMax sel))]

/-- C18, refuted as stated, on ASCII text as long as the text range and a
valid selection inside the text range. (a) Text range (10,20), selection
(12,15), composition range (5,18), which bounds the selection and starts
before the text range: the subtraction 5 - 10 wraps and `SetSurroundingText`
gets an empty text with both positions 4000. (b) Text range (0,10), non-empty
selection (2,5), composition range (1,8): both positions passed are 1, so the
smaller one is not 0. -/
theorem C18_composition_breaks_positions :
    OnCaretBoundsChanged
        (clientOf ⟨10, 20⟩ [97, 98, 99, 100, 101, 102, 103, 104, 105, 106] ⟨12, 15⟩
          (some ⟨5, 18⟩)) =
      Outcome.SetSurroundingText [] 4000 4000 ∧
    sub_uint32 5 10 = 4294967291 ∧
    OnCaretBoundsChanged
        (clientOf ⟨0, 10⟩ [97, 98, 99, 100, 101, 102, 103, 104, 105, 106] ⟨2, 5⟩
          (some ⟨1, 8⟩)) =
      Outcome.SetSurroundingText [97, 98, 99, 100, 101, 102, 103, 104, 105, 106] 1 1 := by
  decide

/-- C18 as amended: the positions passed to `SetSurroundingText` are relative
positions inside the passed text. For a client with a text range, an ASCII
surrounding text whose length equals the text range's length, a valid
selection range lying inside the text range, and a composition range that, if
there is one and it bounds the selection, starts at or after the start of the
text range: (a) `SetSurroundingText` is reached (no `substr` starts past
the end of the text) and the cursor and anchor positions passed are each at
most the length of the passed text; (b) no unsigned subtraction underflows:
the range used starts and ends at or after the start of the text range;
(c) when the selection is non-empty and no composition range bounds it, the
smaller position is 0 and the larger is min(selection length, 4000): with the
cursor (the end of the selection) on the left, the text passed is the 4000
bytes from the cursor on, the cursor is 0 and the anchor the larger position;
with the cursor on the right, the text passed starts at the anchor, or 4000
before the cursor if the selection is longer than 4000 (the 4000 bytes just
before the cursor), the anchor is 0 and the cursor the larger position. -/
theorem C18_relative_positions (client : TextInputClient) (text_range sel : Range)
    (surrounding_text : List Nat)
    (h1 : client.GetTextRange = some text_range)
    (h2 : client.GetTextFromRange text_range = some surrounding_text)
    (h3 : client.GetEditableSelectionRange = some sel)
    (hv : sel.IsValid = true) (hs : sel.InBounds)
    (hascii : ∀ u ∈ surrounding_text, u < 128)
    (hlen : surrounding_text.length = text_range.end_ - text_range.start)
    (hin : text_range.start ≤ sel.GetMin ∧ sel.GetMax ≤ text_range.end_)
    (hcomp : ∀ comp, client.GetCompositionTextRange = some comp →
      sel.IsBoundedBy comp = true → text_range.start ≤ comp.GetMin) :
    (∃ text cursor_position anchor_position,
      OnCaretBoundsChanged client =
        Outcome.SetSurroundingText text cursor_position anchor_position ∧
      cursor_position ≤ text.length ∧ anchor_position ≤ text.length) ∧
    (text_range.start ≤ (surround_range client sel).start ∧
      text_range.start ≤ (surround_range client sel).end_) ∧
    (sel.start ≠ sel.end_ →
      (∀ comp, client.GetCompositionTextRange = some comp → sel.IsBoundedBy comp = false) →
      OnCaretBoundsChanged client =
        if sel.end_ < sel.start then
          Outcome.SetSurroundingText
            ((surrounding_text.drop (sel.end_ - text_range.start)).take 4000)
            0 (min (sel.start - sel.end_) 4000)
        else
          Outcome.SetSurroundingText
            ((surrounding_text.drop
              (max (sel.start - text_range.start) (sel.end_ - text_range.start - 4000))).take
              4000)
            (min (sel.end_ - sel.start) 4000) 0) := by
  have hsel : text_range.start ≤ sel.start ∧ text_range.start ≤ sel.end_ ∧
      sel.start ≤ text_range.end_ ∧ sel.end_ ≤ text_range.end_ := by
    unfold Range.GetMin Range.GetMax at hin
    obtain ⟨hl, hr⟩ := hin
    split at hl <;> split at hr <;> omega
  have hmin : sel.GetMin ≤ sel.start := by
    unfold Range.GetMin
    split <;> omega
  have hb : sel.start ≤ UINT32_MAX ∧ sel.end_ ≤ UINT32_MAX := hs
  have hmax32 : UINT32_MAX < 2 ^ 32 := by
    unfold UINT32_MAX
    norm_num
  rw [OnCaretBoundsChanged_eq client text_range sel surrounding_text h1 h2 h3 hv,
    UTF16ToUTF8_ascii _ hascii]
  refine ⟨?_, ?_, ?_⟩
  · rcases surround_range_cases client sel with hsr | ⟨comp, hc, hbd, hcmin, hsr⟩
    · rw [hsr, sub_uint32_of_le _ _ hsel.1 hb.1, sub_uint32_of_le _ _ hsel.2.1 hb.2]
      exact restrictSurroundingText_inside _ _ _ (by omega) (by omega) (by omega) (by omega)
    · have hstart := hcomp comp hc hbd
      rw [hsr, sub_uint32_of_le _ _ hstart (by omega)]
      exact restrictSurroundingText_inside _ _ _ (by omega) (by omega) (by omega) (by omega)
  · rcases surround_range_cases client sel with hsr | ⟨comp, hc, hbd, hcmin, hsr⟩
    · rw [hsr]
      exact ⟨hsel.1, hsel.2.1⟩
    · rw [hsr]
      exact ⟨hcomp comp hc hbd, hcomp comp hc hbd⟩
  · intro hne hnb
    have hsr : surround_range client sel = sel := by
      rcases surround_range_cases client sel with hsr | ⟨comp, hc, hbd, _, _⟩
      · exact hsr
      · rw [hnb comp hc] at hbd
        cases hbd
    rw [hsr, sub_uint32_of_le _ _ hsel.1 hb.1, sub_uint32_of_le _ _ hsel.2.1 hb.2]
    by_cases hlt : sel.end_ < sel.start
    · rw [if_pos hlt, restrictSurroundingText_cursor_left _ _ _ (by omega) (by omega)
        (by omega)]
      simp only [Outcome.SetSurroundingText.injEq, true_and]
      omega
    · rw [if_neg hlt, restrictSurroundingText_cursor_right _ _ _ (by omega) (by omega)
        (by omega)]
      simp only [Outcome.SetSurroundingText.injEq, true_and, and_true]
      omega

/-- C18 as amended, on a client with the text "hello world" at range (0,11)
and the selection (6,9), no composition: the text passed starts at the anchor,
"world", with cursor 3 and anchor 0. -/
theorem C18_relative_positions_witness :
    OnCaretBoundsChanged
        (clientOf ⟨0, 11⟩ [104, 101, 108, 108, 111, 32, 119, 111, 114, 108, 100] ⟨6, 9⟩ none) =
      Outcome.SetSurroundingText [119, 111, 114, 108, 100] 3 0 :=
  ((C18_relative_positions
    (clientOf ⟨0, 11⟩ [104, 101, 108, 108, 111, 32, 119, 111, 114, 108, 100] ⟨6, 9⟩ none)
    ⟨0, 11⟩ ⟨6, 9⟩ [104, 101, 108, 108, 111, 32, 119, 111, 114, 108, 100]
    rfl rfl rfl (by decide) (by decide) (by decide) (by decide) (by decide)
    (fun _ h => nomatch h)).2.2 (by decide) (fun _ h => nomatch h)).trans (by decide)

end InputMethodNevaObserver

namespace extensions

/-! ## The order of the items -/

theorem string_lt_irrefl (a : List Nat) : string_lt a a = false := by
  induction a with
  | nil => rfl
  | cons x xs ih => simp [string_lt, ih]

theorem string_lt_trans (a b c : List Nat) (hab : string_lt a b = true)
    (hbc : string_lt b c = true) : string_lt a c = true := by
  induction a generalizing b c with
  | nil =>
    cases b with
    | nil => simp [string_lt] at hab
    | cons y ys =>
      cases c with
      | nil => simp [string_lt] at hbc
      | cons z zs => rfl
  | cons x xs ih =>
    cases b with
    | nil => simp [string_lt] at hab
    | cons y ys =>
      cases c with
      | nil => simp [string_lt] at hbc
      | cons z zs =>
        simp only [string_lt] at hab hbc ⊢
        split at hab
        · split at hbc
          · rw [if_pos (by omega)]
          · split at hbc
            · cases hbc
            · rw [if_pos (by omega)]
        · split at hab
          · cases hab
          · split at hbc
            · rw [if_pos (by omega)]
            · split at hbc
              · cases hbc
              · rw [if_neg (by omega), if_neg (by omega)]
                exact ih ys zs hab hbc

theorem string_lt_connected (a b : List Nat) (hab : string_lt a b = false)
    (hba : string_lt b a = false) : a = b := by
  induction a generalizing b with
  | nil =>
    cases b with
    | nil => rfl
    | cons y ys => simp [string_lt] at hab
  | cons x xs ih =>
    cases b with
    | nil => simp [string_lt] at hba
    | cons y ys =>
      simp only [string_lt] at hab hba
      split at hab
      · cases hab
      · split at hab
        · rw [if_pos (by omega)] at hba
          cases hba
        · rw [if_neg (by omega), if_neg (by omega)] at hba
          have hxy : x = y := by omega
          rw [hxy, ih ys hab hba]

theorem string_lt_asymm (a b : List Nat) (hab : string_lt a b = true) :
    string_lt b a = false := by
  cases h : string_lt b a with
  | false => rfl
  | true =>
    have := string_lt_trans a b a hab h
    rw [string_lt_irrefl] at this
    cases this

theorem Item.lt_irrefl (a : Item) : Item.lt a a = false := by
  simp [Item.lt, string_lt_irrefl]

theorem Item.lt_connected (a b : Item) (hab : Item.lt a b = false)
    (hba : Item.lt b a = false) : a = b := by
  unfold Item.lt at hab hba
  cases a with
  | mk ae ap as_ =>
    cases b with
    | mk be bp bs =>
      simp only at hab hba
      cases h1 : string_lt ae be with
      | true => simp [h1] at hab
      | false =>
        cases h2 : string_lt be ae with
        | true => simp [h2] at hba
        | false =>
          have he := string_lt_connected ae be h1 h2
          subst he
          simp only [h1, Bool.false_eq_true, if_false] at hab hba
          split at hab
          · cases hab
          · split at hab
            · rw [if_pos (by omega)] at hba
              cases hba
            · rw [if_neg (by omega), if_neg (by omega)] at hba
              simp only [decide_eq_false_iff_not] at hab hba
              have hp : ap = bp := by omega
              have hs : as_ = bs := by omega
              rw [hp, hs]

theorem Item.lt_trans (a b c : Item) (hab : Item.lt a b = true) (hbc : Item.lt b c = true) :
    Item.lt a c = true := by
  unfold Item.lt at hab hbc ⊢
  cases a with
  | mk ae ap as_ =>
    cases b with
    | mk be bp bs =>
      cases c with
      | mk ce cp cs =>
        simp only at hab hbc ⊢
        cases h1 : string_lt ae be with
        | true =>
          cases h2 : string_lt be ce with
          | true => simp [string_lt_trans ae be ce h1 h2]
          | false =>
            cases h3 : string_lt ce be with
            | true => simp [h2, h3] at hbc
            | false =>
              have he := string_lt_connected be ce h2 h3
              subst he
              simp [h1]
        | false =>
          cases h2 : string_lt be ae with
          | true => simp [h1, h2] at hab
          | false =>
            have he := string_lt_connected ae be h1 h2
            subst he
            simp only [h1, Bool.false_eq_true, if_false] at hab
            cases h3 : string_lt ae ce with
            | true => simp
            | false =>
              cases h4 : string_lt ce ae with
              | true => simp [h3, h4] at hbc
              | false =>
                simp only [h3, h4, Bool.false_eq_true, if_false] at hbc ⊢
                split at hab
                · split at hbc
                  · rw [if_pos (by omega)]
                  · split at hbc
                    · cases hbc
                    · rw [if_pos (by omega)]
                · split at hab
                  · cases hab
                  · split at hbc
                    · rw [if_pos (by omega)]
                    · split at hbc
                      · cases hbc
                      · rw [if_neg (by omega), if_neg (by omega)]
                        simp only [decide_eq_true_eq] at hab hbc ⊢
                        omega

theorem Item.lt_asymm (a b : Item) (hab : Item.lt a b = true) : Item.lt b a = false := by
  cases h : Item.lt b a with
  | false => rfl
  | true =>
    have := Item.lt_trans a b a hab h
    rw [Item.lt_irrefl] at this
    cases this

/-! ## Insert -/

theorem set_insert_mem (l : List Item) (a x : Item) :
    x ∈ (set_insert Item.lt l a).1 ↔ x ∈ l ∨ x = a := by
  induction l with
  | nil => simp [set_insert]
  | cons y ys ih =>
    unfold set_insert
    split
    · simp only [List.mem_cons]
      tauto
    · split
      · simp only [List.mem_cons, ih]
        tauto
      · rename_i h1 h2
        have hya : a = y := Item.lt_connected a y (by simpa using h1) (by simpa using h2)
        subst hya
        simp only [List.mem_cons]
        tauto

theorem set_insert_inserted (l : List Item) (a : Item)
    (hwf : l.Pairwise fun a b => Item.lt a b = true) :
    (set_insert Item.lt l a).2 = true ↔ a ∉ l := by
  induction l with
  | nil => simp [set_insert]
  | cons y ys ih =>
    rw [List.pairwise_cons] at hwf
    obtain ⟨hy, hys⟩ := hwf
    unfold set_insert
    split
    · rename_i h1
      simp only [List.mem_cons, not_or, true_iff]
      constructor
      · intro h
        rw [h, Item.lt_irrefl] at h1
        cases h1
      · intro h
        have h2 := Item.lt_trans a y a h1 (hy a h)
        rw [Item.lt_irrefl] at h2
        cases h2
    · split
      · rename_i h1 h2
        simp only [List.mem_cons, not_or, ih hys]
        constructor
        · intro h
          refine ⟨?_, h⟩
          intro hay
          rw [hay, Item.lt_irrefl] at h2
          cases h2
        · exact fun h => h.2
      · rename_i h1 h2
        have hya : a = y := Item.lt_connected a y (by simpa using h1) (by simpa using h2)
        simp [hya]

theorem set_insert_sorted (l : List Item) (a : Item)
    (hwf : l.Pairwise fun a b => Item.lt a b = true) :
    (set_insert Item.lt l a).1.Pairwise fun a b => Item.lt a b = true := by
  induction l with
  | nil => simp [set_insert]
  | cons y ys ih =>
    have hwf0 := hwf
    rw [List.pairwise_cons] at hwf
    obtain ⟨hy, hys⟩ := hwf
    unfold set_insert
    split
    · rename_i h1
      rw [List.pairwise_cons]
      refine ⟨?_, hwf0⟩
      intro z hz
      rcases List.mem_cons.mp hz with rfl | hz
      · exact h1
      · exact Item.lt_trans a y z h1 (hy z hz)
    · split
      · rename_i h1 h2
        rw [List.pairwise_cons]
        refine ⟨?_, ih hys⟩
        intro z hz
        rcases (set_insert_mem ys a z).mp hz with hz | rfl
        · exact hy z hz
        · exact h2
      · exact hwf0

theorem set_insert_present (l : List Item) (a : Item)
    (hwf : l.Pairwise fun a b => Item.lt a b = true) (ha : a ∈ l) :
    set_insert Item.lt l a = (l, false) := by
  induction l with
  | nil => cases ha
  | cons y ys ih =>
    rw [List.pairwise_cons] at hwf
    obtain ⟨hy, hys⟩ := hwf
    unfold set_insert
    rcases List.mem_cons.mp ha with rfl | ha
    · simp [Item.lt_irrefl]
    · have h1 := hy a ha
      have h2 := Item.lt_asymm y a h1
      simp [h1, h2, ih hys ha]

/-- C19: for a process map (whose items are in the strictly increasing order
of `std::set`) and a triple (extension_id, process_id, site_instance_id):
`Insert` returns true exactly when the triple was not in the map before the
call; afterwards the items are the previous items plus the triple, again in
strictly increasing order, so `Contains(extension_id, process_id)` and
`Contains(process_id)` are true; inserting a triple that is already present
returns false and leaves the map unchanged. -/
theorem C19_Insert (pm : ProcessMap) (extension_id : List Nat)
    (process_id site_instance_id : Int) (hwf : pm.WF) :
    ((pm.Insert extension_id process_id site_instance_id).2 = true ↔
      (⟨extension_id, process_id, site_instance_id⟩ : Item) ∉ pm.items_) ∧
    (∀ x, x ∈ (pm.Insert extension_id process_id site_instance_id).1.items_ ↔
      x ∈ pm.items_ ∨ x = ⟨extension_id, process_id, site_instance_id⟩) ∧
    (pm.Insert extension_id process_id site_instance_id).1.WF ∧
    (pm.Insert extension_id process_id site_instance_id).1.Contains extension_id process_id =
      true ∧
    (pm.Insert extension_id process_id site_instance_id).1.ContainsProcess process_id = true ∧
    ((⟨extension_id, process_id, site_instance_id⟩ : Item) ∈ pm.items_ →
      (pm.Insert extension_id process_id site_instance_id).2 = false ∧
      (pm.Insert extension_id process_id site_instance_id).1 = pm) := by
  have hmem := set_insert_mem pm.items_ ⟨extension_id, process_id, site_instance_id⟩
  have hself := (hmem ⟨extension_id, process_id, site_instance_id⟩).mpr (Or.inr rfl)
  refine ⟨set_insert_inserted _ _ hwf, hmem, set_insert_sorted _ _ hwf, ?_, ?_, ?_⟩
  · unfold ProcessMap.Contains
    rw [List.any_eq_true]
    exact ⟨_, hself, by simp⟩
  · unfold ProcessMap.ContainsProcess
    rw [List.any_eq_true]
    exact ⟨_, hself, by simp⟩
  · intro hin
    have hp := set_insert_present _ _ hwf hin
    unfold ProcessMap.Insert
    rw [hp]
    exact ⟨rfl, rfl⟩

/-- C19 on a map with three items: inserting the new triple ("b", 8, 3)
returns true and adds it in its place; inserting ("a", 8, 1), which is
present, returns false and changes nothing. -/
theorem C19_Insert_witness :
    exampleMap.Insert [98] 8 3 =
      (⟨[⟨[97], 7, 1⟩, ⟨[97], 8, 1⟩, ⟨[98], 7, 2⟩, ⟨[98], 8, 3⟩]⟩, true) ∧
    exampleMap.Insert [97] 8 1 = (exampleMap, false) ∧
    (exampleMap.Insert [98] 8 3).1.Contains [98] 8 = true :=
  ⟨by decide, by decide,
    (C19_Insert exampleMap [98] 8 3 (by unfold ProcessMap.WF; decide)).2.2.2.1⟩

/-! ## RemoveAllFromProcess -/

theorem RemoveAllFromProcess_loop_items (p : Int) (l : List Item) (result : Int) :
    (RemoveAllFromProcess.loop p l result).1 =
      l.filter fun item => !decide (item.process_id = p) := by
  induction l generalizing result with
  | nil => rfl
  | cons y ys ih =>
    unfold RemoveAllFromProcess.loop
    by_cases h : y.process_id = p
    · rw [if_pos h, ih]
      simp [h]
    · rw [if_neg h]
      simp [h, ih]

theorem RemoveAllFromProcess_loop_result (p : Int) (l : List Item) (result : Int) :
    (RemoveAllFromProcess.loop p l result).2 =
      result + ((l.filter fun item => decide (item.process_id = p)).length : Int) := by
  induction l generalizing result with
  | nil => simp [RemoveAllFromProcess.loop]
  | cons y ys ih =>
    unfold RemoveAllFromProcess.loop
    by_cases h : y.process_id = p
    · rw [if_pos h, ih]
      simp [h]
      omega
    · rw [if_neg h]
      simp [h, ih]

theorem GetExtensionsInProcess_foldl_filter (p q : Int) (hq : q ≠ p) (l : List Item)
    (acc : List (List Nat)) :
    (l.filter fun item => !decide (item.process_id = p)).foldl
        (fun result item =>
          if item.process_id = q then (set_insert string_lt result item.extension_id).1
          else result) acc =
      l.foldl
        (fun result item =>
          if item.process_id = q then (set_insert string_lt result item.extension_id).1
          else result) acc := by
  induction l generalizing acc with
  | nil => rfl
  | cons y ys ih =>
    by_cases h : y.process_id = p
    · have hpq : ¬ p = q := fun h2 => hq h2.symm
      simp only [List.filter_cons, h, decide_True, Bool.not_true, Bool.false_eq_true, if_false,
        List.foldl_cons, hpq]
      exact ih acc
    · simp only [List.filter_cons, h, decide_False, Bool.not_false, if_true, List.foldl_cons]
      exact ih _

theorem GetExtensionsInProcess_foldl_none (p : Int) (l : List Item)
    (h : ∀ item ∈ l, item.process_id ≠ p) (acc : List (List Nat)) :
    l.foldl
        (fun result item =>
          if item.process_id = p then (set_insert string_lt result item.extension_id).1
          else result) acc = acc := by
  induction l generalizing acc with
  | nil => rfl
  | cons y ys ih =>
    have hy : ¬ y.process_id = p := h y (List.mem_cons_self _ _)
    simp only [List.foldl_cons, hy, if_false]
    exact ih (fun item hi => h item (List.mem_cons_of_mem _ hi)) acc

/-- The invariant of `std::set` survives `RemoveAllFromProcess`. -/
theorem RemoveAllFromProcess_WF (pm : ProcessMap) (p : Int) (hwf : pm.WF) :
    (pm.RemoveAllFromProcess p).1.WF := by
  unfold ProcessMap.WF ProcessMap.RemoveAllFromProcess
  simp only [RemoveAllFromProcess_loop_items]
  exact List.Pairwise.filter _ hwf

/-- C20: `RemoveAllFromProcess(p)` returns the number of items whose
process id is p before the call. Afterwards the items are exactly the previous
items with a different process id, so `Contains(p)` is false and
`GetExtensionsInProcess(p)` is empty, and for every other process id q,
`Contains(e, q)` for every extension id e and `GetExtensionsInProcess(q)` are
as before. -/
theorem C20_RemoveAllFromProcess (pm : ProcessMap) (p : Int) :
    (pm.RemoveAllFromProcess p).2 =
      ((pm.items_.filter fun item => decide (item.process_id = p)).length : Int) ∧
    (pm.RemoveAllFromProcess p).1.ContainsProcess p = false ∧
    (pm.RemoveAllFromProcess p).1.GetExtensionsInProcess p = [] ∧
    (∀ x, x ∈ (pm.RemoveAllFromProcess p).1.items_ ↔ x ∈ pm.items_ ∧ x.process_id ≠ p) ∧
    (∀ q, q ≠ p →
      (∀ e, (pm.RemoveAllFromProcess p).1.Contains e q = pm.Contains e q) ∧
      (pm.RemoveAllFromProcess p).1.GetExtensionsInProcess q =
        pm.GetExtensionsInProcess q) := by
  have hitems : (pm.RemoveAllFromProcess p).1.items_ =
      pm.items_.filter fun item => !decide (item.process_id = p) := by
    unfold ProcessMap.RemoveAllFromProcess
    exact RemoveAllFromProcess_loop_items p pm.items_ 0
  have hmem : ∀ x, x ∈ (pm.RemoveAllFromProcess p).1.items_ ↔
      x ∈ pm.items_ ∧ x.process_id ≠ p := by
    intro x
    rw [hitems]
    simp [List.mem_filter]
  refine ⟨?_, ?_, ?_, hmem, ?_⟩
  · unfold ProcessMap.RemoveAllFromProcess
    simp only [RemoveAllFromProcess_loop_result, zero_add]
  · unfold ProcessMap.ContainsProcess
    rw [Bool.eq_false_iff]
    intro h
    rw [List.any_eq_true] at h
    obtain ⟨x, hx, hp⟩ := h
    exact ((hmem x).mp hx).2 (by simpa using hp)
  · unfold ProcessMap.GetExtensionsInProcess
    exact GetExtensionsInProcess_foldl_none p _ (fun item hi => ((hmem item).mp hi).2) []
  · intro q hq
    constructor
    · intro e
      unfold ProcessMap.Contains
      rw [hitems, Bool.eq_iff_iff, List.any_eq_true, List.any_eq_true]
      constructor
      · rintro ⟨x, hx, hc⟩
        exact ⟨x, (List.mem_filter.mp hx).1, hc⟩
      · rintro ⟨x, hx, hc⟩
        refine ⟨x, List.mem_filter.mpr ⟨hx, ?_⟩, hc⟩
        have hxq : x.process_id = q := by
          simp only [Bool.and_eq_true, decide_eq_true_eq] at hc
          exact hc.1
        simp only [Bool.not_eq_true', decide_eq_false_iff_not]
        rw [hxq]
        exact hq
    · unfold ProcessMap.GetExtensionsInProcess
      rw [hitems]
      exact GetExtensionsInProcess_foldl_filter p q hq pm.items_ []

/-- C20 evaluated on a map with two extensions in process 7 and one in
process 8: removing process 7 returns 2, leaves the item of process 8, and
the extensions of process 8 are as before. -/
theorem RemoveAllFromProcess_example :
    exampleMap.RemoveAllFromProcess 7 = (⟨[⟨[97], 8, 1⟩]⟩, 2) ∧
    exampleMap.GetExtensionsInProcess 7 = [[97], [98]] ∧
    (exampleMap.RemoveAllFromProcess 7).1.GetExtensionsInProcess 7 = [] ∧
    (exampleMap.RemoveAllFromProcess 7).1.GetExtensionsInProcess 8 = [[97]] := by
  decide

/-! ## Remove -/

theorem set_erase_mem (l : List Item) (a x : Item)
    (hwf : l.Pairwise fun a b => Item.lt a b = true) :
    x ∈ (set_erase Item.lt l a).1 ↔ x ∈ l ∧ x ≠ a := by
  induction l with
  | nil => simp [set_erase]
  | cons y ys ih =>
    rw [List.pairwise_cons] at hwf
    obtain ⟨hy, hys⟩ := hwf
    unfold set_erase
    split
    · rename_i h1
      constructor
      · intro hx
        refine ⟨hx, ?_⟩
        intro hxa
        subst hxa
        rcases List.mem_cons.mp hx with rfl | hx
        · rw [Item.lt_irrefl] at h1
          cases h1
        · have h2 := Item.lt_trans x y x h1 (hy x hx)
          rw [Item.lt_irrefl] at h2
          cases h2
      · exact fun h => h.1
    · split
      · rename_i h1 h2
        simp only [List.mem_cons, ih hys]
        constructor
        · rintro (rfl | ⟨hx, hne⟩)
          · refine ⟨Or.inl rfl, ?_⟩
            intro hxa
            rw [hxa, Item.lt_irrefl] at h2
            cases h2
          · exact ⟨Or.inr hx, hne⟩
        · rintro ⟨rfl | hx, hne⟩
          · exact Or.inl rfl
          · exact Or.inr ⟨hx, hne⟩
      · rename_i h1 h2
        have hya : a = y := Item.lt_connected a y (by simpa using h1) (by simpa using h2)
        subst hya
        simp only [List.mem_cons]
        constructor
        · intro hx
          refine ⟨Or.inr hx, ?_⟩
          intro hxa
          have h3 := hy x hx
          rw [hxa, Item.lt_irrefl] at h3
          cases h3
        · rintro ⟨rfl | hx, hne⟩
          · exact absurd rfl hne
          · exact hx

theorem set_erase_erased (l : List Item) (a : Item)
    (hwf : l.Pairwise fun a b => Item.lt a b = true) :
    (set_erase Item.lt l a).2 > 0 ↔ a ∈ l := by
  induction l with
  | nil => simp [set_erase]
  | cons y ys ih =>
    rw [List.pairwise_cons] at hwf
    obtain ⟨hy, hys⟩ := hwf
    unfold set_erase
    split
    · rename_i h1
      simp only [gt_iff_lt, lt_self_iff_false, List.mem_cons, false_iff, not_or]
      constructor
      · intro h
        rw [h, Item.lt_irrefl] at h1
        cases h1
      · intro h
        have h2 := Item.lt_trans a y a h1 (hy a h)
        rw [Item.lt_irrefl] at h2
        cases h2
    · split
      · rename_i h1 h2
        simp only [List.mem_cons, ih hys]
        constructor
        · exact fun h => Or.inr h
        · rintro (rfl | h)
          · rw [Item.lt_irrefl] at h2
            cases h2
          · exact h
      · rename_i h1 h2
        have hya : a = y := Item.lt_connected a y (by simpa using h1) (by simpa using h2)
        simp [hya]

theorem set_erase_sorted (l : List Item) (a : Item)
    (hwf : l.Pairwise fun a b => Item.lt a b = true) :
    (set_erase Item.lt l a).1.Pairwise fun a b => Item.lt a b = true := by
  induction l with
  | nil => simp [set_erase]
  | cons y ys ih =>
    have hwf0 := hwf
    rw [List.pairwise_cons] at hwf
    obtain ⟨hy, hys⟩ := hwf
    unfold set_erase
    split
    · exact hwf0
    · split
      · rw [List.pairwise_cons]
        refine ⟨?_, ih hys⟩
        intro z hz
        exact hy z ((set_erase_mem ys a z hys).mp hz).1
      · exact hys

/-- Erasing a value right after it was inserted into a set that did not hold
it gives back the set, and one element was erased. -/
theorem set_erase_insert (l : List Item) (a : Item)
    (hwf : l.Pairwise fun a b => Item.lt a b = true) (ha : a ∉ l) :
    set_erase Item.lt (set_insert Item.lt l a).1 a = (l, 1) := by
  induction l with
  | nil => simp [set_insert, set_erase, Item.lt_irrefl]
  | cons y ys ih =>
    rw [List.pairwise_cons] at hwf
    obtain ⟨_, hys⟩ := hwf
    have hay : a ≠ y := fun h => ha (h ▸ List.mem_cons_self _ _)
    have hays : a ∉ ys := fun h => ha (List.mem_cons_of_mem _ h)
    unfold set_insert
    split
    · simp [set_erase, Item.lt_irrefl]
    · split
      · rename_i h1 h2
        simp only
        unfold set_erase
        rw [if_neg h1, if_pos h2, ih hys hays]
      · rename_i h1 h2
        exact absurd (Item.lt_connected a y (by simpa using h1) (by simpa using h2)) hay

/-- C21: for a process map (whose items are in the strictly increasing order
of `std::set`) and a triple (extension_id, process_id, site_instance_id):
`Remove` returns true exactly when that exact triple was in the map;
afterwards the triple is absent and every other triple is in the map exactly
when it was before, the items still in strictly increasing order; in
particular, `Insert` of a triple not in the map followed by `Remove` of the
same triple returns true both times and restores the original map. -/
theorem C21_Remove (pm : ProcessMap) (extension_id : List Nat)
    (process_id site_instance_id : Int) (hwf : pm.WF) :
    ((pm.Remove extension_id process_id site_instance_id).2 = true ↔
      (⟨extension_id, process_id, site_instance_id⟩ : Item) ∈ pm.items_) ∧
    (⟨extension_id, process_id, site_instance_id⟩ : Item) ∉
      (pm.Remove extension_id process_id site_instance_id).1.items_ ∧
    (∀ x, x ≠ (⟨extension_id, process_id, site_instance_id⟩ : Item) →
      (x ∈ (pm.Remove extension_id process_id site_instance_id).1.items_ ↔ x ∈ pm.items_)) ∧
    (pm.Remove extension_id process_id site_instance_id).1.WF ∧
    ((⟨extension_id, process_id, site_instance_id⟩ : Item) ∉ pm.items_ →
      (pm.Insert extension_id process_id site_instance_id).2 = true ∧
      (pm.Insert extension_id process_id site_instance_id).1.Remove
        extension_id process_id site_instance_id = (pm, true)) := by
  have hmem := fun x =>
    set_erase_mem pm.items_ ⟨extension_id, process_id, site_instance_id⟩ x hwf
  refine ⟨?_, ?_, ?_, set_erase_sorted _ _ hwf, ?_⟩
  · unfold ProcessMap.Remove
    simp only [decide_eq_true_eq]
    exact set_erase_erased _ _ hwf
  · exact fun h => ((hmem _).mp h).2 rfl
  · intro x hx
    exact ⟨fun h => ((hmem x).mp h).1, fun h => (hmem x).mpr ⟨h, hx⟩⟩
  · intro hnot
    refine ⟨(set_insert_inserted _ _ hwf).mpr hnot, ?_⟩
    have he := set_erase_insert pm.items_ ⟨extension_id, process_id, site_instance_id⟩ hwf hnot
    unfold ProcessMap.Remove ProcessMap.Insert
    simp only [he]
    rfl

/-- C21 on a map with three items: removing ("a", 8, 1), which is present,
returns true and leaves the two other items; removing ("a", 8, 2), which
differs from it in the site instance id only, returns false and changes
nothing; inserting ("b", 8, 3) and removing it again returns true both times
and gives back the map. -/
theorem C21_Remove_witness :
    exampleMap.Remove [97] 8 1 = (⟨[⟨[97], 7, 1⟩, ⟨[98], 7, 2⟩]⟩, true) ∧
    exampleMap.Remove [97] 8 2 = (exampleMap, false) ∧
    (exampleMap.Insert [98] 8 3).2 = true ∧
    (exampleMap.Insert [98] 8 3).1.Remove [98] 8 3 = (exampleMap, true) :=
  ⟨by decide, by decide,
    (C21_Remove exampleMap [98] 8 3 (by unfold ProcessMap.WF; decide)).2.2.2.2 (by decide)⟩

end extensions
